import Mathlib

/-!
Verification of the web-messenger relay: canonical payload serialization,
request authentication with replay prevention, message queues, key bundles
and group membership, embedded from the TypeScript sources
(`auth.ts`, `router.ts`, `crypto.ts`, `schema.ts`).
-/

namespace WebMessenger

/-- JSON-like payload values as produced by parsing a zod-validated request
body.  `undef` models the JavaScript value `undefined` (which can appear as
the value of an optional field such as `since`); numbers are modelled as
integers, which covers every numeric field of the protocol (ids, counters,
millisecond timestamps). -/
inductive Json where
  | null
  | undef
  | bool (b : Bool)
  | num (n : Int)
  | str (s : String)
  | arr (items : List Json)
  | obj (fields : List (String × Json))
deriving Inhabited

/-- Lower-case hexadecimal digit, used by the `\uXXXX` escapes of
`JSON.stringify`. -/
def hexDigit (n : Nat) : Char :=
  if n < 10 then Char.ofNat (48 + n) else Char.ofNat (87 + n)

/-- Four-digit hexadecimal rendering of a code point below 0x10000. -/
def hex4 (n : Nat) : String :=
  String.mk [hexDigit (n / 4096 % 16), hexDigit (n / 256 % 16),
    hexDigit (n / 16 % 16), hexDigit (n % 16)]

/-- Escaping of one character inside a JSON string literal, following
`JSON.stringify`. -/
def jsonEscapeChar (c : Char) : String :=
  if c = '"' then "\\\""
  else if c = '\\' then "\\\\"
  else if c = '\x08' then "\\b"
  else if c = '\x09' then "\\t"
  else if c = '\x0a' then "\\n"
  else if c = '\x0c' then "\\f"
  else if c = '\x0d' then "\\r"
  else if c.toNat < 32 then "\\u" ++ hex4 c.toNat
  else String.singleton c

/-- `JSON.stringify` of a string value. -/
def jsonStringLit (s : String) : String :=
  "\"" ++ String.join (s.data.map jsonEscapeChar) ++ "\""

/-- Key comparison used by `stableStringify`'s
`.sort(([a], [b]) => a.localeCompare(b))`.  `localeCompare` is modelled as
the total lexicographic order on strings. -/
def keyLE (a b : String × Json) : Prop := a.1 ≤ b.1

instance : DecidableRel keyLE := fun a b => inferInstanceAs (Decidable (a.1 ≤ b.1))

instance : IsTotal (String × Json) keyLE := ⟨fun a b => le_total a.1 b.1⟩

instance : IsTrans (String × Json) keyLE := ⟨fun _ _ _ hab hbc => le_trans hab hbc⟩

/-- The `entries.sort(...)` step of `stableStringify`: a stable sort of the
object entries by key. -/
def sortEntries (fields : List (String × Json)) : List (String × Json) :=
  List.insertionSort keyLE fields

/-- Server-side `stableStringify` (apps/api `auth.ts`): primitives via
`JSON.stringify`, arrays positional, object entries sorted by key. -/
def stableStringify : Json → String
  | .null => "null"
  | .undef => "undefined"
  | .bool b => if b then "true" else "false"
  | .num n => toString n
  | .str s => jsonStringLit s
  | .arr items =>
      "[" ++ String.intercalate "," (items.attach.map fun x => stableStringify x.1) ++ "]"
  | .obj fields =>
      "\x7b" ++ String.intercalate ","
        ((sortEntries fields).attach.map fun x =>
          jsonStringLit x.1.1 ++ ":" ++ stableStringify x.1.2) ++ "\x7d"
termination_by j => sizeOf j
decreasing_by
  · have := List.sizeOf_lt_of_mem x.2
    simp only [Json.arr.sizeOf_spec]
    omega
  · have hmem : x.1 ∈ fields := by
      have hx := x.2
      simp only [sortEntries] at hx
      rwa [List.mem_insertionSort] at hx
    have h1 := List.sizeOf_lt_of_mem hmem
    have h2 : sizeOf x.1.2 < sizeOf x.1 := by
      obtain ⟨a, b⟩ := x.1
      simp only [Prod.mk.sizeOf_spec]
      omega
    simp only [Json.obj.sizeOf_spec]
    omega

/-- Client-side `stableStringify` (apps/web `lib/crypto.ts`), character for
character the same algorithm as the server's. -/
def stableStringifyClient : Json → String
  | .null => "null"
  | .undef => "undefined"
  | .bool b => if b then "true" else "false"
  | .num n => toString n
  | .str s => jsonStringLit s
  | .arr items =>
      "[" ++ String.intercalate "," (items.attach.map fun x => stableStringifyClient x.1) ++ "]"
  | .obj fields =>
      "\x7b" ++ String.intercalate ","
        ((sortEntries fields).attach.map fun x =>
          jsonStringLit x.1.1 ++ ":" ++ stableStringifyClient x.1.2) ++ "\x7d"
termination_by j => sizeOf j
decreasing_by
  · have := List.sizeOf_lt_of_mem x.2
    simp only [Json.arr.sizeOf_spec]
    omega
  · have hmem : x.1 ∈ fields := by
      have hx := x.2
      simp only [sortEntries] at hx
      rwa [List.mem_insertionSort] at hx
    have h1 := List.sizeOf_lt_of_mem hmem
    have h2 : sizeOf x.1.2 < sizeOf x.1 := by
      obtain ⟨a, b⟩ := x.1
      simp only [Prod.mk.sizeOf_spec]
      omega
    simp only [Json.obj.sizeOf_spec]
    omega

mutual

/-- Equality of payload values as maps: identical primitives, positionally
related arrays, and objects whose key/value sets coincide up to reordering
(keys of a JavaScript object are distinct, hence the `Nodup` side
condition). -/
inductive SameMap : Json → Json → Prop where
  | null : SameMap .null .null
  | undef : SameMap .undef .undef
  | bool (b : Bool) : SameMap (.bool b) (.bool b)
  | num (n : Int) : SameMap (.num n) (.num n)
  | str (s : String) : SameMap (.str s) (.str s)
  | arr {xs ys : List Json} : SameMapList xs ys → SameMap (.arr xs) (.arr ys)
  | obj {fs fs1 gs : List (String × Json)} :
      (fs.map Prod.fst).Nodup → SameMapFields fs fs1 → fs1.Perm gs →
      SameMap (.obj fs) (.obj gs)

/-- Pointwise `SameMap` on lists. -/
inductive SameMapList : List Json → List Json → Prop where
  | nil : SameMapList [] []
  | cons {x y : Json} {xs ys : List Json} :
      SameMap x y → SameMapList xs ys → SameMapList (x :: xs) (y :: ys)

/-- Pointwise `SameMap` on object entry lists with identical keys. -/
inductive SameMapFields : List (String × Json) → List (String × Json) → Prop where
  | nil : SameMapFields [] []
  | cons {k : String} {v w : Json} {ps qs : List (String × Json)} :
      SameMap v w → SameMapFields ps qs → SameMapFields ((k, v) :: ps) ((k, w) :: qs)

end

/-- Structural strong induction for `Json`. -/
theorem Json.strongInd (P : Json → Prop) (hnull : P .null) (hundef : P .undef)
    (hbool : ∀ b, P (.bool b)) (hnum : ∀ n, P (.num n)) (hstr : ∀ s, P (.str s))
    (harr : ∀ xs, (∀ j ∈ xs, P j) → P (.arr xs))
    (hobj : ∀ fs, (∀ p ∈ fs, P p.2) → P (.obj fs)) : ∀ j, P j
  | .null => hnull
  | .undef => hundef
  | .bool b => hbool b
  | .num n => hnum n
  | .str s => hstr s
  | .arr xs => harr xs fun j hj =>
      Json.strongInd P hnull hundef hbool hnum hstr harr hobj j
  | .obj fs => hobj fs fun p hp =>
      Json.strongInd P hnull hundef hbool hnum hstr harr hobj p.2
termination_by j => sizeOf j
decreasing_by
  · have := List.sizeOf_lt_of_mem hj
    simp only [Json.arr.sizeOf_spec]
    omega
  · have h1 := List.sizeOf_lt_of_mem hp
    have h2 : sizeOf p.2 < sizeOf p := by
      obtain ⟨a, b⟩ := p
      simp only [Prod.mk.sizeOf_spec]
      omega
    simp only [Json.obj.sizeOf_spec]
    omega

/-- Unfolding of `stableStringify` on arrays without the `attach`. -/
theorem stableStringify_arr (xs : List Json) :
    stableStringify (.arr xs) =
      "[" ++ String.intercalate "," (xs.map stableStringify) ++ "]" := by
  rw [stableStringify]
  congr 2
  exact congrArg (String.intercalate ",") (List.attach_map_val xs stableStringify)

/-- Unfolding of `stableStringify` on objects without the `attach`. -/
theorem stableStringify_obj (fs : List (String × Json)) :
    stableStringify (.obj fs) =
      "\x7b" ++ String.intercalate ","
        ((sortEntries fs).map fun p => jsonStringLit p.1 ++ ":" ++ stableStringify p.2) ++
      "\x7d" := by
  rw [stableStringify]
  congr 2
  exact congrArg (String.intercalate ",")
    (List.attach_map_val (sortEntries fs) fun p => jsonStringLit p.1 ++ ":" ++ stableStringify p.2)

/-- The serialized form of one object entry: its key together with the
canonical serialization of its value. -/
def serEntry (p : String × Json) : String × String := (p.1, stableStringify p.2)

/-- Strict key order on serialized entries. -/
def serLT (a b : String × String) : Prop := a.1 < b.1

instance : IsAntisymm (String × String) serLT :=
  ⟨fun _ _ hab hba => absurd hba (lt_asymm hab)⟩

/-- Non-strict key order on serialized entries. -/
def serLE (a b : String × String) : Prop := a.1 ≤ b.1

/-- Pointwise serialization equality for `SameMapList`-related lists. -/
theorem sameMapList_map_stringify : ∀ {xs ys : List Json}, SameMapList xs ys →
    (∀ j ∈ xs, ∀ j2, SameMap j j2 → stableStringify j = stableStringify j2) →
    xs.map stableStringify = ys.map stableStringify := by
  intro xs
  induction xs with
  | nil =>
    intro ys h _
    cases h
    rfl
  | cons x xs2 ihx =>
    intro ys h ih
    cases h with
    | cons h1 h2 =>
      simp only [List.map_cons, List.cons.injEq]
      exact ⟨ih _ (by simp) _ h1, ihx h2 fun j hj j2 hsm => ih j (by simp [hj]) j2 hsm⟩

/-- Pointwise serialized-entry equality for `SameMapFields`-related lists. -/
theorem sameMapFields_map_serEntry : ∀ {ps qs : List (String × Json)}, SameMapFields ps qs →
    (∀ p ∈ ps, ∀ j2, SameMap p.2 j2 → stableStringify p.2 = stableStringify j2) →
    ps.map serEntry = qs.map serEntry := by
  intro ps
  induction ps with
  | nil =>
    intro qs h _
    cases h
    rfl
  | cons p ps2 ihp =>
    intro qs h ih
    cases h with
    | cons h1 h2 =>
      rename_i k v w qs2
      simp only [List.map_cons, List.cons.injEq]
      refine ⟨?_, ihp h2 fun p hp j2 hsm => ih p (by simp [hp]) j2 hsm⟩
      have hv := ih (k, v) (by simp) w h1
      simp only [serEntry, hv]

/-- A `≤`-pairwise list of serialized entries with distinct keys is
`<`-pairwise. -/
theorem pairwise_serLT_of_serLE {A : List (String × String)}
    (hle : A.Pairwise serLE) (hne : A.Pairwise fun a b => a.1 ≠ b.1) :
    A.Pairwise serLT := by
  induction A with
  | nil => exact List.Pairwise.nil
  | cons a l ih =>
    rw [List.pairwise_cons] at hle hne ⊢
    exact ⟨fun b hb => lt_of_le_of_ne (hle.1 b hb) (hne.1 b hb), ih hle.2 hne.2⟩

/-- Sorting entry lists whose serialized forms are permutations of one
another (with distinct keys) yields identical serialized entry lists. -/
theorem sorted_serEntries_eq {fs gs : List (String × Json)}
    (hperm : (fs.map serEntry).Perm (gs.map serEntry))
    (hnodup : (fs.map Prod.fst).Nodup) :
    (sortEntries fs).map serEntry = (sortEntries gs).map serEntry := by
  have hfst : ∀ hs : List (String × Json), (hs.map serEntry).map Prod.fst = hs.map Prod.fst := by
    intro hs
    rw [List.map_map]
    rfl
  have hsortPerm : ∀ hs : List (String × Json),
      ((sortEntries hs).map serEntry).Perm (hs.map serEntry) :=
    fun hs => (List.perm_insertionSort keyLE hs).map serEntry
  have hpairLE : ∀ hs : List (String × Json), ((sortEntries hs).map serEntry).Pairwise serLE := by
    intro hs
    rw [List.pairwise_map]
    exact (List.sorted_insertionSort keyLE hs).imp fun h => h
  have hAB : ((sortEntries fs).map serEntry).Perm ((sortEntries gs).map serEntry) :=
    ((hsortPerm fs).trans hperm).trans (hsortPerm gs).symm
  have hnodupA : (((sortEntries fs).map serEntry).map Prod.fst).Nodup := by
    rw [hfst]
    have hp : ((sortEntries fs).map Prod.fst).Perm (fs.map Prod.fst) :=
      (List.perm_insertionSort keyLE fs).map Prod.fst
    exact hp.nodup_iff.mpr hnodup
  have hnodupB : (((sortEntries gs).map serEntry).map Prod.fst).Nodup :=
    (hAB.map Prod.fst).nodup_iff.mp hnodupA
  have hne : ∀ {A : List (String × String)}, (A.map Prod.fst).Nodup →
      A.Pairwise fun a b => a.1 ≠ b.1 := by
    intro A hA
    have h2 : (A.map Prod.fst).Pairwise (· ≠ ·) := hA
    rwa [List.pairwise_map] at h2
  have hltA := pairwise_serLT_of_serLE (hpairLE fs) (hne hnodupA)
  have hltB := pairwise_serLT_of_serLE (hpairLE gs) (hne hnodupB)
  exact List.eq_of_perm_of_sorted hAB hltA hltB

/-- Canonical serialization is invariant under map-equality. -/
theorem sameMap_stringify_eq :
    ∀ j1 j2, SameMap j1 j2 → stableStringify j1 = stableStringify j2 := by
  refine Json.strongInd _ ?_ ?_ ?_ ?_ ?_ ?_ ?_
  · intro j2 h
    cases h
    rfl
  · intro j2 h
    cases h
    rfl
  · intro b j2 h
    cases h
    rfl
  · intro n j2 h
    cases h
    rfl
  · intro s j2 h
    cases h
    rfl
  · intro xs ih j2 h
    cases h with
    | arr hl =>
      rw [stableStringify_arr, stableStringify_arr, sameMapList_map_stringify hl ih]
  · intro fs ih j2 h
    cases h with
    | obj hnodup hfields hperm =>
      rw [stableStringify_obj, stableStringify_obj]
      have hmapeq := sameMapFields_map_serEntry hfields ih
      have hperm2 := hperm.map serEntry
      rw [← hmapeq] at hperm2
      have hkey := sorted_serEntries_eq hperm2 hnodup
      have hfact : ∀ hs : List (String × Json),
          (sortEntries hs).map (fun p => jsonStringLit p.1 ++ ":" ++ stableStringify p.2) =
            ((sortEntries hs).map serEntry).map fun q => jsonStringLit q.1 ++ ":" ++ q.2 := by
        intro hs
        rw [List.map_map]
        rfl
      rw [hfact, hfact, hkey]

/-- Unfolding of `stableStringifyClient` on arrays without the `attach`. -/
theorem stableStringifyClient_arr (xs : List Json) :
    stableStringifyClient (.arr xs) =
      "[" ++ String.intercalate "," (xs.map stableStringifyClient) ++ "]" := by
  rw [stableStringifyClient]
  congr 2
  exact congrArg (String.intercalate ",") (List.attach_map_val xs stableStringifyClient)

/-- Unfolding of `stableStringifyClient` on objects without the `attach`. -/
theorem stableStringifyClient_obj (fs : List (String × Json)) :
    stableStringifyClient (.obj fs) =
      "\x7b" ++ String.intercalate ","
        ((sortEntries fs).map fun p => jsonStringLit p.1 ++ ":" ++ stableStringifyClient p.2) ++
      "\x7d" := by
  rw [stableStringifyClient]
  congr 2
  exact congrArg (String.intercalate ",")
    (List.attach_map_val (sortEntries fs) fun p =>
      jsonStringLit p.1 ++ ":" ++ stableStringifyClient p.2)

/-- The client canonicalizer agrees with the server canonicalizer on every
payload value. -/
theorem stableStringifyClient_eq_server :
    ∀ j, stableStringifyClient j = stableStringify j := by
  refine Json.strongInd _ (by rw [stableStringifyClient, stableStringify])
    (by rw [stableStringifyClient, stableStringify])
    (fun b => by rw [stableStringifyClient, stableStringify])
    (fun n => by rw [stableStringifyClient, stableStringify])
    (fun s => by rw [stableStringifyClient, stableStringify]) ?_ ?_
  · intro xs ih
    rw [stableStringifyClient_arr, stableStringify_arr]
    have : xs.map stableStringifyClient = xs.map stableStringify :=
      List.map_congr_left ih
    rw [this]
  · intro fs ih
    rw [stableStringifyClient_obj, stableStringify_obj]
    have : (sortEntries fs).map (fun p => jsonStringLit p.1 ++ ":" ++ stableStringifyClient p.2) =
        (sortEntries fs).map fun p => jsonStringLit p.1 ++ ":" ++ stableStringify p.2 := by
      refine List.map_congr_left fun p hp => ?_
      have hmem : p ∈ fs := by
        have hx := hp
        simp only [sortEntries] at hx
        rwa [List.mem_insertionSort] at hx
      rw [ih p hmem]
    rw [this]

/-- C1: canonical payload serialization is deterministic and
key-order-independent — map-equal payload objects (equal key/value sets up
to key order, recursively) serialize to byte-identical strings, and the
client-side canonicalizer (`crypto.ts`) produces the same string as the
server-side one (`auth.ts`) on every payload.  `localeCompare` is modelled
as a fixed total order on strings and JavaScript numbers as integers. -/
theorem c1_canonicalization_deterministic :
    (∀ j1 j2, SameMap j1 j2 → stableStringify j1 = stableStringify j2) ∧
    (∀ j, stableStringifyClient j = stableStringify j) :=
  ⟨sameMap_stringify_eq, stableStringifyClient_eq_server⟩

/-- Witness for C1 at a concrete pair of nested, key-reordered objects. -/
theorem c1_canonicalization_deterministic_witness :
    stableStringify (.obj [("b", .num 1), ("a", .obj [("y", .bool true), ("x", .null)])]) =
      stableStringify (.obj [("a", .obj [("x", .null), ("y", .bool true)]), ("b", .num 1)]) := by
  have hinner : SameMap (.obj [("y", .bool true), ("x", .null)])
      (.obj [("x", .null), ("y", .bool true)]) :=
    .obj (by decide) (.cons (.bool true) (.cons .null .nil)) (List.Perm.swap _ _ _)
  exact c1_canonicalization_deterministic.1 _ _
    (.obj (by decide) (.cons (.num 1) (.cons hinner .nil)) (List.Perm.swap _ _ _))

/-- Decidable equality of `Except` results, for evaluating concrete
procedure outcomes. -/
instance {ε α : Type} [DecidableEq ε] [DecidableEq α] : DecidableEq (Except ε α) := fun a b =>
  match a, b with
  | .error e1, .error e2 =>
    if h : e1 = e2 then .isTrue (by rw [h]) else .isFalse (by intro hc; cases hc; exact h rfl)
  | .error _, .ok _ => .isFalse (by intro hc; cases hc)
  | .ok _, .error _ => .isFalse (by intro hc; cases hc)
  | .ok v1, .ok v2 =>
    if h : v1 = v2 then .isTrue (by rw [h]) else .isFalse (by intro hc; cases hc; exact h rfl)

/-! ## Server data model (packages/db `schema.ts`) -/

/-- The signed request envelope accompanying every authenticated call. -/
structure AuthEnvelope where
  userId : String
  identityPublicKey : String
  nonce : String
  signature : String
deriving DecidableEq

/-- Opaque cryptographic capabilities.  `hashPubKey` is
`sha256(decodeBase64Url pk)` in base64url (the `deriveUserId` hash),
`hashPayload` is `sha256` in base64url of the canonical payload string, and
`verify` checks a detached signature over a message under a public key. -/
structure Crypto where
  hashPubKey : String → String
  hashPayload : String → String
  verify : String → String → String → Bool

/-- Group member role (`group_members.role`). -/
inductive Role where
  | owner
  | admin
  | member
deriving DecidableEq

/-- A row of `users`. -/
structure UserRow where
  userId : String
  identityPublicKey : String
  signalIdentityPublicKey : String
  registrationId : Nat
  createdAt : Nat
deriving DecidableEq

/-- A row of `prekeys` (serial primary key `id`). -/
structure PrekeyRow where
  id : Nat
  userId : String
  signedPreKeyId : Nat
  signedPreKeyPublic : String
  signedPreKeySignature : String
  oneTimePreKeyId : Option Nat
  oneTimePreKeyPublic : Option String
  isUsed : Bool
  createdAt : Nat
deriving DecidableEq

/-- A row of `message_queue` (serial primary key `queuedMsgId`; unique index
on `(toUserId, fromUserId, clientMsgId)`). -/
structure MsgRow where
  queuedMsgId : Nat
  toUserId : String
  fromUserId : String
  ciphertext : String
  header : String
  clientMsgId : String
  createdAt : Nat
  expiresAt : Option Nat
deriving DecidableEq

/-- A row of `groups` (serial primary key `groupId`). -/
structure GroupRow where
  groupId : Nat
  name : String
  createdAt : Nat
  createdByUserId : String
deriving DecidableEq

/-- A row of `group_members` (composite primary key `(groupId, userId)`). -/
structure MemberRow where
  groupId : Nat
  userId : String
  role : Role
  joinedAt : Nat
deriving DecidableEq

/-- A row of `group_message_queue` (serial primary key `queuedMsgId`; unique
index on `(groupId, fromUserId, clientMsgId)`). -/
structure GMsgRow where
  queuedMsgId : Nat
  groupId : Nat
  fromUserId : String
  ciphertext : String
  header : String
  clientMsgId : String
  createdAt : Nat
deriving DecidableEq

/-- A row of `auth_nonces` (composite primary key `(userId, nonce)`). -/
structure NonceRow where
  nonce : String
  userId : String
  createdAt : Nat
deriving DecidableEq

/-- The relay database.  Tables are lists of rows in insertion order; the
`next*` counters model the Postgres serial sequences and exceed every id
already allocated in the corresponding table. -/
structure DB where
  users : List UserRow
  prekeys : List PrekeyRow
  messageQueue : List MsgRow
  groups : List GroupRow
  groupMembers : List MemberRow
  groupMessageQueue : List GMsgRow
  authNonces : List NonceRow
  nextPrekeyId : Nat
  nextQueuedMsgId : Nat
  nextGroupId : Nat
  nextGroupQueuedMsgId : Nat
deriving DecidableEq

/-- The empty database. -/
def DB.empty : DB :=
  ⟨[], [], [], [], [], [], [], 1, 1, 1, 1⟩

/-- tRPC error outcomes used by the router. -/
inductive Err where
  | unauthorized (msg : String)
  | badRequest (msg : String)
  | forbidden (msg : String)
  | notFound (msg : String)
deriving DecidableEq

/-! ## Auth verifier (apps/api `auth.ts`) -/

/-- `deriveUserId`: hash of the decoded identity public key. -/
def deriveUserId (c : Crypto) (identityPublicKey : String) : String :=
  c.hashPubKey identityPublicKey

/-- The string that is signed for a procedure call:
`"{procedure}:{nonce}:{payloadHash}"`. -/
def signedString (c : Crypto) (procedure : String) (nonce : String) (payload : Json) : String :=
  procedure ++ ":" ++ nonce ++ ":" ++ c.hashPayload (stableStringify payload)

/-- Does the nonce table already contain the `(userId, nonce)` pair?  The
code relies on the composite primary key of `auth_nonces` to reject the
insert. -/
def noncePresent (db : DB) (userId nonce : String) : Bool :=
  db.authNonces.any fun r => decide (r.userId = userId ∧ r.nonce = nonce)

/-- `assertAuthenticated`: recompute the userId, verify the signature over
the canonical payload hash, then insert the `(userId, nonce)` pair, failing
on replay.  Errors are reported as messages, as thrown `Error`s are in the
source. -/
def assertAuthenticated (c : Crypto) (procedure : String) (auth : AuthEnvelope)
    (payload : Json) (now : Nat) (db : DB) : Except String String × DB :=
  if deriveUserId c auth.identityPublicKey ≠ auth.userId then
    (.error "auth.userId mismatch", db)
  else if c.verify (signedString c procedure auth.nonce payload)
      auth.signature auth.identityPublicKey ≠ true then
    (.error "invalid signature", db)
  else if noncePresent db auth.userId auth.nonce then
    (.error "replayed request", db)
  else
    (.ok auth.userId,
      { db with authNonces := (db.authNonces ++ [⟨auth.nonce, auth.userId, now⟩]) })

/-- `requireAuth` (router): `assertAuthenticated` with failures surfaced as
`UNAUTHORIZED`. -/
def requireAuth (c : Crypto) (procedure : String) (auth : AuthEnvelope)
    (payload : Json) (now : Nat) (db : DB) : Except Err String × DB :=
  match assertAuthenticated c procedure auth payload now db with
  | (.error msg, db1) => (.error (.unauthorized msg), db1)
  | (.ok userId, db1) => (.ok userId, db1)

/-- Run a procedure body after `requireAuth`, as every router mutation and
query does. -/
def withAuth (c : Crypto) (procedure : String) (auth : AuthEnvelope) (payload : Json)
    (now : Nat) (db : DB) (body : String → DB → Except Err α × DB) : Except Err α × DB :=
  match requireAuth c procedure auth payload now db with
  | (.error e, db1) => (.error e, db1)
  | (.ok userId, db1) => body userId db1

/-! ## Router inputs and outputs (packages/shared zod schemas) -/

/-- `signedPreKeySchema`. -/
structure SignedPreKeyIn where
  keyId : Nat
  publicKey : String
  signature : String
deriving DecidableEq

/-- `preKeySchema`. -/
structure PreKeyIn where
  keyId : Nat
  publicKey : String
deriving DecidableEq

/-- `identityRegisterBundleSchema` (minus zod string/range constraints). -/
structure RegisterBundleInput where
  auth : AuthEnvelope
  signalIdentityPublicKey : String
  registrationId : Nat
  signedPreKey : SignedPreKeyIn
  oneTimePreKeys : List PreKeyIn
deriving DecidableEq

/-- `messageSendSchema`. -/
structure SendInput where
  auth : AuthEnvelope
  toUserId : String
  ciphertext : String
  header : String
  clientMsgId : String
  createdAt : Nat
deriving DecidableEq

/-- `messagePollSchema`. -/
structure PollInput where
  auth : AuthEnvelope
  since : Option Nat
deriving DecidableEq

/-- `messageAckDeleteSchema` and `groupAckDeleteSchema`. -/
structure AckDeleteInput where
  auth : AuthEnvelope
  queuedMsgId : Nat
deriving DecidableEq

/-- `groupCreateSchema`. -/
structure GroupCreateInput where
  auth : AuthEnvelope
  name : String
  memberUserIds : List String
deriving DecidableEq

/-- `groupAddMembersSchema`. -/
structure GroupAddMembersInput where
  auth : AuthEnvelope
  groupId : Nat
  memberUserIds : List String
deriving DecidableEq

/-- `groupPostSchema`. -/
structure GroupPostInput where
  auth : AuthEnvelope
  groupId : Nat
  ciphertext : String
  header : String
  clientMsgId : String
  createdAt : Nat
deriving DecidableEq

/-- `groupPollSchema`. -/
structure GroupPollInput where
  auth : AuthEnvelope
  groupId : Nat
  since : Option Nat
deriving DecidableEq

/-- `groupGetMembersSchema`. -/
structure GroupGetMembersInput where
  auth : AuthEnvelope
  groupId : Nat
deriving DecidableEq

/-- The signed pre-key part of a bundle response. -/
structure SignedPreKeyOut where
  keyId : Nat
  publicKey : String
  signature : String
deriving DecidableEq

/-- The one-time pre-key part of a bundle response. -/
structure PreKeyOut where
  keyId : Nat
  publicKey : String
deriving DecidableEq

/-- `identity.getBundle` response. -/
structure BundleOut where
  registrationId : Nat
  signalIdentityPublicKey : String
  signedPreKey : SignedPreKeyOut
  oneTimePreKey : Option PreKeyOut
deriving DecidableEq

/-- `message.send` / `group.post` response (`-1` models the
`existing[0]?.queuedMsgId ?? -1` fallback). -/
structure QueuedOut where
  queuedMsgId : Int
deriving DecidableEq

/-- One row of the `group.listMine` response. -/
structure GroupListRow where
  groupId : Nat
  name : String
  createdAt : Nat
  createdByUserId : String
  role : Role
deriving DecidableEq

/-- One row of the `group.getMembers` response. -/
structure MemberInfo where
  userId : String
  role : Role
  joinedAt : Nat
deriving DecidableEq

/-! ## Signed payload objects

The payload signed (and hashed) for each authenticated procedure is the
zod-parsed input minus its `auth` field, in schema field order. -/

/-- JSON value of an optional number field: an omitted `since` is
`undefined`. -/
def sinceJson : Option Nat → Json
  | none => .undef
  | some s => .num s

/-- Payload of `identity.registerBundle`. -/
def encodeRegisterBundlePayload (input : RegisterBundleInput) : Json :=
  .obj [("signalIdentityPublicKey", .str input.signalIdentityPublicKey),
        ("registrationId", .num input.registrationId),
        ("signedPreKey", .obj [("keyId", .num input.signedPreKey.keyId),
          ("publicKey", .str input.signedPreKey.publicKey),
          ("signature", .str input.signedPreKey.signature)]),
        ("oneTimePreKeys", .arr (input.oneTimePreKeys.map fun p =>
          .obj [("keyId", .num p.keyId), ("publicKey", .str p.publicKey)]))]

/-- Payload of `message.send`. -/
def encodeSendPayload (input : SendInput) : Json :=
  .obj [("toUserId", .str input.toUserId), ("ciphertext", .str input.ciphertext),
        ("header", .str input.header), ("clientMsgId", .str input.clientMsgId),
        ("createdAt", .num input.createdAt)]

/-- Payload of `message.poll`: the `{ since }` object. -/
def encodePollPayload (input : PollInput) : Json :=
  .obj [("since", sinceJson input.since)]

/-- Payload of `message.ackDelete` and `group.ackDelete`. -/
def encodeAckDeletePayload (input : AckDeleteInput) : Json :=
  .obj [("queuedMsgId", .num input.queuedMsgId)]

/-- Payload of `group.create`. -/
def encodeGroupCreatePayload (input : GroupCreateInput) : Json :=
  .obj [("name", .str input.name),
        ("memberUserIds", .arr (input.memberUserIds.map Json.str))]

/-- Payload of `group.addMembers`. -/
def encodeGroupAddMembersPayload (input : GroupAddMembersInput) : Json :=
  .obj [("groupId", .num input.groupId),
        ("memberUserIds", .arr (input.memberUserIds.map Json.str))]

/-- Payload of `group.post`. -/
def encodeGroupPostPayload (input : GroupPostInput) : Json :=
  .obj [("groupId", .num input.groupId), ("ciphertext", .str input.ciphertext),
        ("header", .str input.header), ("clientMsgId", .str input.clientMsgId),
        ("createdAt", .num input.createdAt)]

/-- Payload of `group.poll`: the `{ groupId, since }` object. -/
def encodeGroupPollPayload (input : GroupPollInput) : Json :=
  .obj [("groupId", .num input.groupId), ("since", sinceJson input.since)]

/-- Payload of `group.getMembers`: the `{ groupId }` object. -/
def encodeGroupGetMembersPayload (input : GroupGetMembersInput) : Json :=
  .obj [("groupId", .num input.groupId)]

/-! ## Router procedure bodies (apps/api `router.ts`) -/

/-- Ordering of `prekeys` rows by serial `id` (the `orderBy(prekeys.id)`). -/
def prekeyIdLE (a b : PrekeyRow) : Prop := a.id ≤ b.id

instance : DecidableRel prekeyIdLE := fun a b => inferInstanceAs (Decidable (a.id ≤ b.id))

instance : IsTotal PrekeyRow prekeyIdLE := ⟨fun a b => Nat.le_total a.id b.id⟩

instance : IsTrans PrekeyRow prekeyIdLE := ⟨fun _ _ _ hab hbc => Nat.le_trans hab hbc⟩

/-- Ordering of `message_queue` rows by `createdAt` (the
`orderBy(messageQueue.createdAt)`). -/
def msgCreatedLE (a b : MsgRow) : Prop := a.createdAt ≤ b.createdAt

instance : DecidableRel msgCreatedLE := fun a b => inferInstanceAs (Decidable (a.createdAt ≤ b.createdAt))

instance : IsTotal MsgRow msgCreatedLE := ⟨fun a b => Nat.le_total a.createdAt b.createdAt⟩

instance : IsTrans MsgRow msgCreatedLE := ⟨fun _ _ _ hab hbc => Nat.le_trans hab hbc⟩

/-- Ordering of `group_message_queue` rows by `createdAt`. -/
def gmsgCreatedLE (a b : GMsgRow) : Prop := a.createdAt ≤ b.createdAt

instance : DecidableRel gmsgCreatedLE := fun a b => inferInstanceAs (Decidable (a.createdAt ≤ b.createdAt))

instance : IsTotal GMsgRow gmsgCreatedLE := ⟨fun a b => Nat.le_total a.createdAt b.createdAt⟩

instance : IsTrans GMsgRow gmsgCreatedLE := ⟨fun _ _ _ hab hbc => Nat.le_trans hab hbc⟩

/-- Ordering of `group.listMine` rows by the group's `createdAt`. -/
def listRowLE (a b : GroupListRow) : Prop := a.createdAt ≤ b.createdAt

instance : DecidableRel listRowLE := fun a b => inferInstanceAs (Decidable (a.createdAt ≤ b.createdAt))

instance : IsTotal GroupListRow listRowLE := ⟨fun a b => Nat.le_total a.createdAt b.createdAt⟩

instance : IsTrans GroupListRow listRowLE := ⟨fun _ _ _ hab hbc => Nat.le_trans hab hbc⟩

/-- `identity.registerBundle` after authentication: upsert the `users` row
(keyed by `userId`), delete the user's pre-key pool, bulk-insert one
`prekeys` row per supplied one-time pre-key. -/
def registerBundleBody (now : Nat) (input : RegisterBundleInput) (userId : String)
    (db : DB) : Except Err Unit × DB :=
  let users1 :=
    if db.users.any fun u => decide (u.userId = userId) then
      db.users.map fun u =>
        if u.userId = userId then
          { u with identityPublicKey := input.auth.identityPublicKey,
                   signalIdentityPublicKey := input.signalIdentityPublicKey,
                   registrationId := input.registrationId }
        else u
    else
      db.users ++ [⟨userId, input.auth.identityPublicKey, input.signalIdentityPublicKey,
        input.registrationId, now⟩]
  let kept := db.prekeys.filter fun r => !decide (r.userId = userId)
  let fresh := input.oneTimePreKeys.enum.map fun p =>
    ({ id := db.nextPrekeyId + p.1, userId := userId,
       signedPreKeyId := input.signedPreKey.keyId,
       signedPreKeyPublic := input.signedPreKey.publicKey,
       signedPreKeySignature := input.signedPreKey.signature,
       oneTimePreKeyId := some p.2.keyId,
       oneTimePreKeyPublic := some p.2.publicKey,
       isUsed := false, createdAt := now } : PrekeyRow)
  (.ok (), { db with
    users := users1
    prekeys := (kept ++ fresh)
    nextPrekeyId := db.nextPrekeyId + input.oneTimePreKeys.length })

/-- `identity.getBundle` (unauthenticated query): look up the user, select
the oldest unused `prekeys` row, mark it used when it carries a one-time
pre-key, and return the bundle. -/
def identityGetBundle (userId : String) (db : DB) : Except Err BundleOut × DB :=
  match (db.users.filter fun u => decide (u.userId = userId)).head? with
  | none => (.error (.notFound "user not found"), db)
  | some identity =>
    match ((db.prekeys.filter fun r =>
        decide (r.userId = userId) && !r.isUsed).insertionSort prekeyIdLE).head? with
    | none => (.error (.notFound "no prekey bundle"), db)
    | some prekey =>
      let db1 :=
        if prekey.oneTimePreKeyId ≠ none then
          { db with prekeys := db.prekeys.map fun r =>
              if r.id = prekey.id then { r with isUsed := true } else r }
        else db
      (.ok { registrationId := identity.registrationId,
             signalIdentityPublicKey := identity.signalIdentityPublicKey,
             signedPreKey := ⟨prekey.signedPreKeyId, prekey.signedPreKeyPublic,
               prekey.signedPreKeySignature⟩,
             oneTimePreKey :=
               match prekey.oneTimePreKeyId, prekey.oneTimePreKeyPublic with
               | some kid, some pub => some ⟨kid, pub⟩
               | _, _ => none }, db1)

/-- The unique-index predicate of `message_queue`:
`(toUserId, fromUserId, clientMsgId)`. -/
def msgTriple (toUserId fromUserId clientMsgId : String) (r : MsgRow) : Bool :=
  decide (r.toUserId = toUserId ∧ r.fromUserId = fromUserId ∧ r.clientMsgId = clientMsgId)

/-- `message.send` after authentication: reject unknown recipients, insert
with `onConflictDoNothing` on the unique triple, and on conflict return the
existing row's id. -/
def sendBody (input : SendInput) (fromUserId : String) (db : DB) :
    Except Err QueuedOut × DB :=
  match (db.users.filter fun u => decide (u.userId = input.toUserId)).head? with
  | none => (.error (.badRequest "target user not found"), db)
  | some _ =>
    if db.messageQueue.any (msgTriple input.toUserId fromUserId input.clientMsgId) then
      match (db.messageQueue.filter
          (msgTriple input.toUserId fromUserId input.clientMsgId)).head? with
      | some row => (.ok ⟨(row.queuedMsgId : Int)⟩, db)
      | none => (.ok ⟨-1⟩, db)
    else
      (.ok ⟨(db.nextQueuedMsgId : Int)⟩,
        { db with
          messageQueue := (db.messageQueue ++ [⟨db.nextQueuedMsgId, input.toUserId,
            fromUserId, input.ciphertext, input.header, input.clientMsgId,
            input.createdAt, none⟩])
          nextQueuedMsgId := db.nextQueuedMsgId + 1 })

/-- Truthiness of the optional `since` parameter: JavaScript's
`if (since)` is false for `undefined` and for `0`. -/
def sinceTruthy : Option Nat → Bool
  | none => false
  | some s => s != 0

/-- The `where` condition of `message.poll`. -/
def pollCond (userId : String) (since : Option Nat) (r : MsgRow) : Bool :=
  decide (r.toUserId = userId) && (!sinceTruthy since || decide (since.getD 0 < r.createdAt))

/-- `message.poll` after authentication: the caller's queue, optionally
filtered to `createdAt > since`, ordered by `createdAt`. -/
def pollBody (input : PollInput) (userId : String) (db : DB) :
    Except Err (List MsgRow) × DB :=
  (.ok ((db.messageQueue.filter (pollCond userId input.since)).insertionSort msgCreatedLE), db)

/-- `message.ackDelete` after authentication: delete the row only if it is
addressed to the caller. -/
def ackDeleteBody (input : AckDeleteInput) (userId : String) (db : DB) :
    Except Err Unit × DB :=
  (.ok (), { db with messageQueue := (db.messageQueue.filter fun r =>
    !decide (r.queuedMsgId = input.queuedMsgId ∧ r.toUserId = userId)) })

/-- `Array.from(new Set(l))`: deduplication keeping first occurrences. -/
def jsDedup (l : List String) : List String :=
  l.foldl (fun acc x => if x ∈ acc then acc else acc ++ [x]) []

/-- `group.create` after authentication: dedup the member list with the
creator forced in, validate all ids against `users`, insert the group row
and one member row per deduplicated id, creator as owner.  (The
`created[0]?.groupId` null-guard of the source is unreachable in the
relational model, where `returning` always yields the inserted row.) -/
def groupCreateBody (now : Nat) (input : GroupCreateInput) (userId : String)
    (db : DB) : Except Err Nat × DB :=
  let memberUserIds := jsDedup (userId :: input.memberUserIds)
  let knownUsers := db.users.filter fun u => decide (u.userId ∈ memberUserIds)
  if knownUsers.length ≠ memberUserIds.length then
    (.error (.badRequest "unknown userId included"), db)
  else
    let groupId := db.nextGroupId
    (.ok groupId,
      { db with
        groups := (db.groups ++ [⟨groupId, input.name, now, userId⟩])
        groupMembers := (db.groupMembers ++ memberUserIds.map fun m =>
          ⟨groupId, m, if m = userId then .owner else .member, now⟩)
        nextGroupId := db.nextGroupId + 1 })

/-- Does the membership table contain the `(groupId, userId)` pair (its
composite primary key)? -/
def hasMember (g : Nat) (uid : String) (ms : List MemberRow) : Bool :=
  ms.any fun m => decide (m.groupId = g ∧ m.userId = uid)

/-- Bulk member insert with `onConflictDoNothing` on the `(groupId, userId)`
primary key. -/
def insertMembersSkipConflicts (g now : Nat) (ids : List String)
    (ms : List MemberRow) : List MemberRow :=
  ids.foldl (fun acc uid =>
    if hasMember g uid acc then acc else acc ++ [⟨g, uid, .member, now⟩]) ms

/-- `group.addMembers` after authentication: the actor must be an owner or
admin of the group; all added ids must be registered; inserts skip existing
members. -/
def groupAddMembersBody (now : Nat) (input : GroupAddMembersInput) (userId : String)
    (db : DB) : Except Err Unit × DB :=
  match (db.groupMembers.filter fun m =>
      decide (m.groupId = input.groupId ∧ m.userId = userId)).head? with
  | none => (.error (.forbidden "insufficient role"), db)
  | some actor =>
    if actor.role ≠ Role.owner ∧ actor.role ≠ Role.admin then
      (.error (.forbidden "insufficient role"), db)
    else
      let knownUsers := db.users.filter fun u => decide (u.userId ∈ input.memberUserIds)
      if knownUsers.length ≠ input.memberUserIds.length then
        (.error (.badRequest "unknown userId included"), db)
      else
        (.ok (), { db with groupMembers :=
          insertMembersSkipConflicts input.groupId now input.memberUserIds db.groupMembers })

/-- `group.listMine` after authentication: the caller's memberships joined
with `groups`, ordered by the group's `createdAt`. -/
def listMineBody (userId : String) (db : DB) :
    Except Err (List GroupListRow) × DB :=
  let rows := (db.groupMembers.filter fun m => decide (m.userId = userId)).filterMap fun m =>
    (db.groups.find? fun g => decide (g.groupId = m.groupId)).map fun g =>
      ({ groupId := g.groupId, name := g.name, createdAt := g.createdAt,
         createdByUserId := g.createdByUserId, role := m.role } : GroupListRow)
  (.ok (rows.insertionSort listRowLE), db)

/-- `group.getMembers` after authentication: membership-gated roster. -/
def getMembersBody (input : GroupGetMembersInput) (userId : String) (db : DB) :
    Except Err (List MemberInfo) × DB :=
  match (db.groupMembers.filter fun m =>
      decide (m.groupId = input.groupId ∧ m.userId = userId)).head? with
  | none => (.error (.forbidden "not a group member"), db)
  | some _ =>
    (.ok ((db.groupMembers.filter fun m => decide (m.groupId = input.groupId)).map fun m =>
      ⟨m.userId, m.role, m.joinedAt⟩), db)

/-- The unique-index predicate of `group_message_queue`:
`(groupId, fromUserId, clientMsgId)`. -/
def gmsgTriple (groupId : Nat) (fromUserId clientMsgId : String) (r : GMsgRow) : Bool :=
  decide (r.groupId = groupId ∧ r.fromUserId = fromUserId ∧ r.clientMsgId = clientMsgId)

/-- `group.post` after authentication: membership-gated idempotent insert
into the group queue. -/
def groupPostBody (input : GroupPostInput) (userId : String) (db : DB) :
    Except Err QueuedOut × DB :=
  match (db.groupMembers.filter fun m =>
      decide (m.groupId = input.groupId ∧ m.userId = userId)).head? with
  | none => (.error (.forbidden "not a group member"), db)
  | some _ =>
    if db.groupMessageQueue.any (gmsgTriple input.groupId userId input.clientMsgId) then
      match (db.groupMessageQueue.filter
          (gmsgTriple input.groupId userId input.clientMsgId)).head? with
      | some row => (.ok ⟨(row.queuedMsgId : Int)⟩, db)
      | none => (.ok ⟨-1⟩, db)
    else
      (.ok ⟨(db.nextGroupQueuedMsgId : Int)⟩,
        { db with
          groupMessageQueue := (db.groupMessageQueue ++ [⟨db.nextGroupQueuedMsgId,
            input.groupId, userId, input.ciphertext, input.header, input.clientMsgId,
            input.createdAt⟩])
          nextGroupQueuedMsgId := db.nextGroupQueuedMsgId + 1 })

/-- The `where` condition of `group.poll`. -/
def groupPollCond (groupId : Nat) (since : Option Nat) (r : GMsgRow) : Bool :=
  decide (r.groupId = groupId) && (!sinceTruthy since || decide (since.getD 0 < r.createdAt))

/-- `group.poll` after authentication: membership-gated, optionally
`since`-filtered group queue ordered by `createdAt`. -/
def groupPollBody (input : GroupPollInput) (userId : String) (db : DB) :
    Except Err (List GMsgRow) × DB :=
  match (db.groupMembers.filter fun m =>
      decide (m.groupId = input.groupId ∧ m.userId = userId)).head? with
  | none => (.error (.forbidden "not a group member"), db)
  | some _ =>
    (.ok ((db.groupMessageQueue.filter
      (groupPollCond input.groupId input.since)).insertionSort gmsgCreatedLE), db)

/-- `group.ackDelete` after authentication, as written in the source: look
up the row, silently succeed when it does not exist, reject non-members of
its group — and then return `ok` without ever issuing a delete. -/
def groupAckDeleteBody (input : AckDeleteInput) (userId : String) (db : DB) :
    Except Err Unit × DB :=
  match (db.groupMessageQueue.filter fun r =>
      decide (r.queuedMsgId = input.queuedMsgId)).head? with
  | none => (.ok (), db)
  | some row =>
    match (db.groupMembers.filter fun m =>
        decide (m.groupId = row.groupId ∧ m.userId = userId)).head? with
    | none => (.error (.forbidden "not a group member"), db)
    | some _ => (.ok (), db)

/-! ## Authenticated procedures and the request dispatcher -/

/-- `identity.registerBundle`. -/
def identityRegisterBundle (c : Crypto) (now : Nat) (input : RegisterBundleInput)
    (db : DB) : Except Err Unit × DB :=
  withAuth c "identity.registerBundle" input.auth (encodeRegisterBundlePayload input)
    now db (registerBundleBody now input)

/-- `message.send`. -/
def messageSend (c : Crypto) (now : Nat) (input : SendInput) (db : DB) :
    Except Err QueuedOut × DB :=
  withAuth c "message.send" input.auth (encodeSendPayload input) now db (sendBody input)

/-- `message.poll`. -/
def messagePoll (c : Crypto) (now : Nat) (input : PollInput) (db : DB) :
    Except Err (List MsgRow) × DB :=
  withAuth c "message.poll" input.auth (encodePollPayload input) now db (pollBody input)

/-- `message.ackDelete`. -/
def messageAckDelete (c : Crypto) (now : Nat) (input : AckDeleteInput) (db : DB) :
    Except Err Unit × DB :=
  withAuth c "message.ackDelete" input.auth (encodeAckDeletePayload input) now db
    (ackDeleteBody input)

/-- `group.create`. -/
def groupCreate (c : Crypto) (now : Nat) (input : GroupCreateInput) (db : DB) :
    Except Err Nat × DB :=
  withAuth c "group.create" input.auth (encodeGroupCreatePayload input) now db
    (groupCreateBody now input)

/-- `group.addMembers`. -/
def groupAddMembers (c : Crypto) (now : Nat) (input : GroupAddMembersInput) (db : DB) :
    Except Err Unit × DB :=
  withAuth c "group.addMembers" input.auth (encodeGroupAddMembersPayload input) now db
    (groupAddMembersBody now input)

/-- `group.listMine`. -/
def groupListMine (c : Crypto) (now : Nat) (auth : AuthEnvelope) (db : DB) :
    Except Err (List GroupListRow) × DB :=
  withAuth c "group.listMine" auth (.obj []) now db fun userId db1 => listMineBody userId db1

/-- `group.getMembers`. -/
def groupGetMembers (c : Crypto) (now : Nat) (input : GroupGetMembersInput) (db : DB) :
    Except Err (List MemberInfo) × DB :=
  withAuth c "group.getMembers" input.auth (encodeGroupGetMembersPayload input) now db
    (getMembersBody input)

/-- `group.post`. -/
def groupPost (c : Crypto) (now : Nat) (input : GroupPostInput) (db : DB) :
    Except Err QueuedOut × DB :=
  withAuth c "group.post" input.auth (encodeGroupPostPayload input) now db
    (groupPostBody input)

/-- `group.poll`. -/
def groupPoll (c : Crypto) (now : Nat) (input : GroupPollInput) (db : DB) :
    Except Err (List GMsgRow) × DB :=
  withAuth c "group.poll" input.auth (encodeGroupPollPayload input) now db
    (groupPollBody input)

/-- `group.ackDelete`. -/
def groupAckDelete (c : Crypto) (now : Nat) (input : AckDeleteInput) (db : DB) :
    Except Err Unit × DB :=
  withAuth c "group.ackDelete" input.auth (encodeAckDeletePayload input) now db
    (groupAckDeleteBody input)

/-- A request to any procedure of the router. -/
inductive Request where
  | registerBundle (input : RegisterBundleInput)
  | getBundle (userId : String)
  | send (input : SendInput)
  | poll (input : PollInput)
  | ackDelete (input : AckDeleteInput)
  | groupCreate (input : GroupCreateInput)
  | groupAddMembers (input : GroupAddMembersInput)
  | groupListMine (auth : AuthEnvelope)
  | groupGetMembers (input : GroupGetMembersInput)
  | groupPost (input : GroupPostInput)
  | groupPoll (input : GroupPollInput)
  | groupAckDelete (input : AckDeleteInput)
deriving DecidableEq

/-- A response from any procedure of the router. -/
inductive Response where
  | ok
  | queued (queuedMsgId : Int)
  | bundle (b : BundleOut)
  | messages (rows : List MsgRow)
  | groupCreated (groupId : Nat)
  | groupList (rows : List GroupListRow)
  | members (rows : List MemberInfo)
  | groupMessages (rows : List GMsgRow)
deriving DecidableEq

/-- Wrap a typed procedure outcome into the untyped response. -/
def mapResult (f : α → Response) : Except Err α × DB → Except Err Response × DB
  | (.error e, db) => (.error e, db)
  | (.ok a, db) => (.ok (f a), db)

/-- The router: dispatch one request against the database. -/
def handleRequest (c : Crypto) (now : Nat) : Request → DB → Except Err Response × DB
  | .registerBundle input, db => mapResult (fun _ => .ok) (identityRegisterBundle c now input db)
  | .getBundle userId, db => mapResult .bundle (identityGetBundle userId db)
  | .send input, db => mapResult (fun q => .queued q.queuedMsgId) (messageSend c now input db)
  | .poll input, db => mapResult .messages (messagePoll c now input db)
  | .ackDelete input, db => mapResult (fun _ => .ok) (messageAckDelete c now input db)
  | .groupCreate input, db => mapResult .groupCreated (groupCreate c now input db)
  | .groupAddMembers input, db => mapResult (fun _ => .ok) (groupAddMembers c now input db)
  | .groupListMine auth, db => mapResult .groupList (groupListMine c now auth db)
  | .groupGetMembers input, db => mapResult .members (groupGetMembers c now input db)
  | .groupPost input, db => mapResult (fun q => .queued q.queuedMsgId) (groupPost c now input db)
  | .groupPoll input, db => mapResult .groupMessages (groupPoll c now input db)
  | .groupAckDelete input, db => mapResult (fun _ => .ok) (groupAckDelete c now input db)

/-- The envelope of a request, when the procedure is authenticated
(`identity.getBundle` is the single unauthenticated procedure). -/
def Request.envelope : Request → Option AuthEnvelope
  | .registerBundle input => some input.auth
  | .getBundle _ => none
  | .send input => some input.auth
  | .poll input => some input.auth
  | .ackDelete input => some input.auth
  | .groupCreate input => some input.auth
  | .groupAddMembers input => some input.auth
  | .groupListMine auth => some auth
  | .groupGetMembers input => some input.auth
  | .groupPost input => some input.auth
  | .groupPoll input => some input.auth
  | .groupAckDelete input => some input.auth

/-- The procedure name a request signs over. -/
def Request.procName : Request → String
  | .registerBundle _ => "identity.registerBundle"
  | .getBundle _ => "identity.getBundle"
  | .send _ => "message.send"
  | .poll _ => "message.poll"
  | .ackDelete _ => "message.ackDelete"
  | .groupCreate _ => "group.create"
  | .groupAddMembers _ => "group.addMembers"
  | .groupListMine _ => "group.listMine"
  | .groupGetMembers _ => "group.getMembers"
  | .groupPost _ => "group.post"
  | .groupPoll _ => "group.poll"
  | .groupAckDelete _ => "group.ackDelete"

/-- The signed payload object of a request. -/
def Request.payloadJson : Request → Json
  | .registerBundle input => encodeRegisterBundlePayload input
  | .getBundle userId => .obj [("userId", .str userId)]
  | .send input => encodeSendPayload input
  | .poll input => encodePollPayload input
  | .ackDelete input => encodeAckDeletePayload input
  | .groupCreate input => encodeGroupCreatePayload input
  | .groupAddMembers input => encodeGroupAddMembersPayload input
  | .groupListMine _ => .obj []
  | .groupGetMembers input => encodeGroupGetMembersPayload input
  | .groupPost input => encodeGroupPostPayload input
  | .groupPoll input => encodeGroupPollPayload input
  | .groupAckDelete input => encodeAckDeletePayload input

/-- A request's envelope is valid for a crypto capability when its `userId`
is derived from its identity key and its signature over
`"{procedure}:{nonce}:{payloadHash}"` verifies. -/
def ValidSigned (c : Crypto) (req : Request) (a : AuthEnvelope) : Prop :=
  req.envelope = some a ∧
  deriveUserId c a.identityPublicKey = a.userId ∧
  c.verify (signedString c req.procName a.nonce req.payloadJson)
    a.signature a.identityPublicKey = true

/-! ## Replay prevention (C2, C10) -/

/-- Successful authentication on a valid envelope with a fresh
`(userId, nonce)` pair: returns the derived user and records the pair. -/
theorem requireAuth_ok (c : Crypto) (proc : String) (a : AuthEnvelope) (payload : Json)
    (now : Nat) (db : DB)
    (hderive : deriveUserId c a.identityPublicKey = a.userId)
    (hsig : c.verify (signedString c proc a.nonce payload) a.signature a.identityPublicKey = true)
    (hfresh : noncePresent db a.userId a.nonce = false) :
    requireAuth c proc a payload now db =
      (.ok a.userId, { db with authNonces := (db.authNonces ++ [⟨a.nonce, a.userId, now⟩]) }) := by
  unfold requireAuth assertAuthenticated
  simp [hderive, hsig, hfresh]

/-- Authentication on a valid envelope whose `(userId, nonce)` pair is
already recorded: fails as a replayed request without touching the
database. -/
theorem requireAuth_replay (c : Crypto) (proc : String) (a : AuthEnvelope) (payload : Json)
    (now : Nat) (db : DB)
    (hderive : deriveUserId c a.identityPublicKey = a.userId)
    (hsig : c.verify (signedString c proc a.nonce payload) a.signature a.identityPublicKey = true)
    (hpresent : noncePresent db a.userId a.nonce = true) :
    requireAuth c proc a payload now db = (.error (.unauthorized "replayed request"), db) := by
  unfold requireAuth assertAuthenticated
  simp [hderive, hsig, hpresent]

/-- `noncePresent` depends only on the nonce table. -/
theorem noncePresent_congr {d1 d2 : DB} (h : d1.authNonces = d2.authNonces) (u n : String) :
    noncePresent d1 u n = noncePresent d2 u n := by
  simp [noncePresent, h]

/-- Recording a pair makes it present. -/
theorem noncePresent_insert (db : DB) (u n : String) (now : Nat) :
    noncePresent { db with authNonces := (db.authNonces ++ [⟨n, u, now⟩]) } u n = true := by
  simp [noncePresent, List.any_append]

/-- `mapResult` does not change the database component. -/
theorem mapResult_db (f : α → Response) (r : Except Err α × DB) :
    (mapResult f r).2 = r.2 := by
  obtain ⟨res, db⟩ := r
  cases res <;> rfl

/-- `mapResult` on an error is the identity on the pair. -/
theorem mapResult_error (f : α → Response) (e : Err) (db : DB) :
    mapResult f (.error e, db) = (.error e, db) := rfl

/-- `noncePresent` is unaffected by `mapResult`. -/
theorem noncePresent_mapResult (f : α → Response) (r : Except Err α × DB) (u n : String) :
    noncePresent (mapResult f r).2 u n = noncePresent r.2 u n := by
  rw [mapResult_db]

/-- A body preserves the nonce table. -/
def PreservesNonces (body : String → DB → Except Err α × DB) : Prop :=
  ∀ uid db, ((body uid db).2).authNonces = db.authNonces

theorem registerBundleBody_nonces (now : Nat) (input : RegisterBundleInput) :
    PreservesNonces (registerBundleBody now input) := by
  intro uid db
  rfl

theorem sendBody_nonces (input : SendInput) : PreservesNonces (sendBody input) := by
  intro uid db
  unfold sendBody
  split
  · rfl
  · split
    · split <;> rfl
    · rfl

theorem pollBody_nonces (input : PollInput) : PreservesNonces (pollBody input) := by
  intro uid db
  rfl

theorem ackDeleteBody_nonces (input : AckDeleteInput) : PreservesNonces (ackDeleteBody input) := by
  intro uid db
  rfl

theorem groupCreateBody_nonces (now : Nat) (input : GroupCreateInput) :
    PreservesNonces (groupCreateBody now input) := by
  intro uid db
  unfold groupCreateBody
  dsimp only
  split <;> rfl

theorem groupAddMembersBody_nonces (now : Nat) (input : GroupAddMembersInput) :
    PreservesNonces (groupAddMembersBody now input) := by
  intro uid db
  unfold groupAddMembersBody
  dsimp only
  split
  · rfl
  · split
    · rfl
    · split <;> rfl

theorem listMineBody_nonces : PreservesNonces listMineBody := by
  intro uid db
  rfl

theorem getMembersBody_nonces (input : GroupGetMembersInput) :
    PreservesNonces (getMembersBody input) := by
  intro uid db
  unfold getMembersBody
  split <;> rfl

theorem groupPostBody_nonces (input : GroupPostInput) : PreservesNonces (groupPostBody input) := by
  intro uid db
  unfold groupPostBody
  split
  · rfl
  · split
    · split <;> rfl
    · rfl

theorem groupPollBody_nonces (input : GroupPollInput) : PreservesNonces (groupPollBody input) := by
  intro uid db
  unfold groupPollBody
  split <;> rfl

theorem groupAckDeleteBody_nonces (input : AckDeleteInput) :
    PreservesNonces (groupAckDeleteBody input) := by
  intro uid db
  unfold groupAckDeleteBody
  split
  · rfl
  · split <;> rfl

/-- After `withAuth` on a valid envelope with fresh pair, the pair is
recorded, whatever the body then does to the rest of the database. -/
theorem withAuth_ok_nonces {α} (c : Crypto) (proc : String) (a : AuthEnvelope) (payload : Json)
    (now : Nat) (db : DB) (body : String → DB → Except Err α × DB)
    (hbody : PreservesNonces body)
    (hderive : deriveUserId c a.identityPublicKey = a.userId)
    (hsig : c.verify (signedString c proc a.nonce payload) a.signature a.identityPublicKey = true)
    (hfresh : noncePresent db a.userId a.nonce = false) :
    noncePresent (withAuth c proc a payload now db body).2 a.userId a.nonce = true := by
  rw [withAuth, requireAuth_ok c proc a payload now db hderive hsig hfresh]
  rw [noncePresent_congr (hbody a.userId _)]
  exact noncePresent_insert db a.userId a.nonce now

/-- `withAuth` on a valid envelope with an already-recorded pair fails with
the replay error and leaves the database untouched. -/
theorem withAuth_replay {α} (c : Crypto) (proc : String) (a : AuthEnvelope) (payload : Json)
    (now : Nat) (db : DB) (body : String → DB → Except Err α × DB)
    (hderive : deriveUserId c a.identityPublicKey = a.userId)
    (hsig : c.verify (signedString c proc a.nonce payload) a.signature a.identityPublicKey = true)
    (hpresent : noncePresent db a.userId a.nonce = true) :
    withAuth c proc a payload now db body = (.error (.unauthorized "replayed request"), db) := by
  rw [withAuth, requireAuth_replay c proc a payload now db hderive hsig hpresent]

/-- Any authenticated request on a valid envelope with a fresh pair records
the pair. -/
theorem handle_inserts_nonce (c : Crypto) (now : Nat) (req : Request) (db : DB)
    (a : AuthEnvelope) (hv : ValidSigned c req a)
    (hfresh : noncePresent db a.userId a.nonce = false) :
    noncePresent (handleRequest c now req db).2 a.userId a.nonce = true := by
  obtain ⟨henv, hderive, hsig⟩ := hv
  cases req <;>
    simp only [Request.envelope, Option.some.injEq, reduceCtorEq] at henv <;>
    simp only [Request.procName, Request.payloadJson] at hsig <;>
    subst henv <;>
    simp only [handleRequest, identityRegisterBundle, messageSend, messagePoll,
      messageAckDelete, groupCreate, groupAddMembers, groupListMine, groupGetMembers,
      groupPost, groupPoll, groupAckDelete] <;>
    rw [noncePresent_mapResult]
  case registerBundle input =>
    exact withAuth_ok_nonces _ _ _ _ _ _ _ (registerBundleBody_nonces now input) hderive hsig hfresh
  case send input =>
    exact withAuth_ok_nonces _ _ _ _ _ _ _ (sendBody_nonces input) hderive hsig hfresh
  case poll input =>
    exact withAuth_ok_nonces _ _ _ _ _ _ _ (pollBody_nonces input) hderive hsig hfresh
  case ackDelete input =>
    exact withAuth_ok_nonces _ _ _ _ _ _ _ (ackDeleteBody_nonces input) hderive hsig hfresh
  case groupCreate input =>
    exact withAuth_ok_nonces _ _ _ _ _ _ _ (groupCreateBody_nonces now input) hderive hsig hfresh
  case groupAddMembers input =>
    exact withAuth_ok_nonces _ _ _ _ _ _ _ (groupAddMembersBody_nonces now input) hderive hsig hfresh
  case groupListMine auth =>
    exact withAuth_ok_nonces _ _ _ _ _ _ _ listMineBody_nonces hderive hsig hfresh
  case groupGetMembers input =>
    exact withAuth_ok_nonces _ _ _ _ _ _ _ (getMembersBody_nonces input) hderive hsig hfresh
  case groupPost input =>
    exact withAuth_ok_nonces _ _ _ _ _ _ _ (groupPostBody_nonces input) hderive hsig hfresh
  case groupPoll input =>
    exact withAuth_ok_nonces _ _ _ _ _ _ _ (groupPollBody_nonces input) hderive hsig hfresh
  case groupAckDelete input =>
    exact withAuth_ok_nonces _ _ _ _ _ _ _ (groupAckDeleteBody_nonces input) hderive hsig hfresh

/-- Any authenticated request on a valid envelope whose pair is already
recorded fails as a replay without executing any side effect. -/
theorem handle_replay (c : Crypto) (now : Nat) (req : Request) (db : DB)
    (a : AuthEnvelope) (hv : ValidSigned c req a)
    (hpresent : noncePresent db a.userId a.nonce = true) :
    handleRequest c now req db = (.error (.unauthorized "replayed request"), db) := by
  obtain ⟨henv, hderive, hsig⟩ := hv
  cases req <;>
    simp only [Request.envelope, Option.some.injEq, reduceCtorEq] at henv <;>
    simp only [Request.procName, Request.payloadJson] at hsig <;>
    subst henv <;>
    simp only [handleRequest, identityRegisterBundle, messageSend, messagePoll,
      messageAckDelete, groupCreate, groupAddMembers, groupListMine, groupGetMembers,
      groupPost, groupPoll, groupAckDelete] <;>
    rw [withAuth_replay _ _ _ _ _ _ _ hderive hsig hpresent] <;>
    rfl

/-- C2: for every valid envelope, authentication succeeds exactly once per
`(userId, nonce)` pair — the first authenticated request records the pair,
and any later request (any procedure, any payload, any re-signed valid
signature) presenting the same pair fails as `unauthorized
("replayed request")` with the database completely unchanged, hence no
procedure side effect. -/
theorem c2_nonce_replay_rejected (c : Crypto) (now now2 : Nat) (req req2 : Request)
    (db : DB) (a a2 : AuthEnvelope)
    (hv : ValidSigned c req a)
    (hfresh : noncePresent db a.userId a.nonce = false)
    (hv2 : ValidSigned c req2 a2)
    (hu : a2.userId = a.userId) (hn : a2.nonce = a.nonce) :
    noncePresent (handleRequest c now req db).2 a.userId a.nonce = true ∧
    handleRequest c now2 req2 (handleRequest c now req db).2 =
      (.error (.unauthorized "replayed request"), (handleRequest c now req db).2) := by
  have h1 := handle_inserts_nonce c now req db a hv hfresh
  refine ⟨h1, handle_replay c now2 req2 _ a2 hv2 ?_⟩
  rw [hu, hn]
  exact h1

/-- A concrete crypto capability for witnesses: hashing is tagging, every
signature verifies. -/
def testCrypto : Crypto :=
  { hashPubKey := fun s => "uid:" ++ s
    hashPayload := fun _ => "payloadhash"
    verify := fun _ _ _ => true }

/-- A concrete envelope accepted by `testCrypto`. -/
def testEnvelope : AuthEnvelope :=
  { userId := "uid:identityAAA"
    identityPublicKey := "identityAAA"
    nonce := "nonce-000000000001"
    signature := "sigAAA" }

/-- A concrete `message.send` input. -/
def testSendInput : SendInput :=
  { auth := testEnvelope
    toUserId := "uid:identityBBB"
    ciphertext := "ct-1"
    header := "hd-1"
    clientMsgId := "m1"
    createdAt := 1000 }

/-- Witness for C2: a concrete first send records the nonce pair and an
identical resubmission is rejected as a replay. -/
theorem c2_nonce_replay_rejected_witness :
    noncePresent (handleRequest testCrypto 5 (.send testSendInput) DB.empty).2
      testEnvelope.userId testEnvelope.nonce = true ∧
    handleRequest testCrypto 6 (.send testSendInput)
        (handleRequest testCrypto 5 (.send testSendInput) DB.empty).2 =
      (.error (.unauthorized "replayed request"),
        (handleRequest testCrypto 5 (.send testSendInput) DB.empty).2) :=
  c2_nonce_replay_rejected testCrypto 5 6 (.send testSendInput) (.send testSendInput)
    DB.empty testEnvelope testEnvelope
    ⟨rfl, rfl, rfl⟩ (by decide) ⟨rfl, rfl, rfl⟩ rfl rfl

/-- C10: the nonce insertion performed by authentication persists even when
the procedure body then fails — a `message.send` whose envelope verifies
but whose `toUserId` is unregistered fails with `BAD_REQUEST` while the
`(userId, nonce)` pair stays recorded, so resubmitting the identical signed
request fails as a replay (unauthorized), not with the original
`BAD_REQUEST`. -/
theorem c10_nonce_persists_after_body_failure (c : Crypto) (now now2 : Nat)
    (input : SendInput) (db : DB)
    (hv : ValidSigned c (.send input) input.auth)
    (hfresh : noncePresent db input.auth.userId input.auth.nonce = false)
    (htarget : db.users.filter (fun u => decide (u.userId = input.toUserId)) = []) :
    handleRequest c now (.send input) db =
      (.error (.badRequest "target user not found"),
        { db with authNonces :=
          (db.authNonces ++ [⟨input.auth.nonce, input.auth.userId, now⟩]) }) ∧
    handleRequest c now2 (.send input)
        { db with authNonces :=
          (db.authNonces ++ [⟨input.auth.nonce, input.auth.userId, now⟩]) } =
      (.error (.unauthorized "replayed request"),
        { db with authNonces :=
          (db.authNonces ++ [⟨input.auth.nonce, input.auth.userId, now⟩]) }) := by
  have hv2 := hv
  obtain ⟨henv, hderive, hsig⟩ := hv
  simp only [Request.procName, Request.payloadJson] at hsig
  constructor
  · simp only [handleRequest, messageSend, withAuth]
    rw [requireAuth_ok c "message.send" input.auth (encodeSendPayload input) now db
      hderive hsig hfresh]
    simp only [sendBody, htarget, mapResult]
    rfl
  · exact handle_replay c now2 (.send input) _ input.auth hv2
      (noncePresent_insert db input.auth.userId input.auth.nonce now)

/-- Witness for C10 at a concrete send to an unregistered recipient. -/
theorem c10_nonce_persists_after_body_failure_witness :
    handleRequest testCrypto 5 (.send testSendInput) DB.empty =
      (.error (.badRequest "target user not found"),
        { DB.empty with authNonces :=
          ([] ++ [⟨testSendInput.auth.nonce, testSendInput.auth.userId, 5⟩]) }) ∧
    handleRequest testCrypto 6 (.send testSendInput)
        { DB.empty with authNonces :=
          ([] ++ [⟨testSendInput.auth.nonce, testSendInput.auth.userId, 5⟩]) } =
      (.error (.unauthorized "replayed request"),
        { DB.empty with authNonces :=
          ([] ++ [⟨testSendInput.auth.nonce, testSendInput.auth.userId, 5⟩]) }) :=
  c10_nonce_persists_after_body_failure testCrypto 5 6 testSendInput DB.empty
    ⟨rfl, rfl, rfl⟩ (by decide) rfl

/-! ## Idempotent send (C3) -/

/-- The queue row created by a first, conflict-free `message.send`. -/
def firstSendRow (input : SendInput) (db : DB) : MsgRow :=
  ⟨db.nextQueuedMsgId, input.toUserId, input.auth.userId, input.ciphertext,
    input.header, input.clientMsgId, input.createdAt, none⟩

/-- C3: `message.send` is idempotent under retries — with the queue free of
the `(toUserId, fromUserId, clientMsgId)` triple, a first authenticated
send creates one row and returns its id, and a second authenticated send
with the same triple (any ciphertext, fresh nonce) inserts nothing and
returns the same id. -/
theorem c3_send_idempotent (c : Crypto) (now1 now2 : Nat) (i1 i2 : SendInput) (db : DB)
    (hv1 : ValidSigned c (.send i1) i1.auth)
    (hfresh1 : noncePresent db i1.auth.userId i1.auth.nonce = false)
    (hv2 : ValidSigned c (.send i2) i2.auth)
    (hsameuser : i2.auth.userId = i1.auth.userId)
    (hto : i2.toUserId = i1.toUserId)
    (hcm : i2.clientMsgId = i1.clientMsgId)
    (hfresh2 : noncePresent db i2.auth.userId i2.auth.nonce = false)
    (hdiff : i2.auth.nonce ≠ i1.auth.nonce)
    (htarget : db.users.filter (fun u => decide (u.userId = i1.toUserId)) ≠ [])
    (hnew : ∀ r ∈ db.messageQueue,
      msgTriple i1.toUserId i1.auth.userId i1.clientMsgId r = false) :
    messageSend c now1 i1 db =
      (.ok ⟨(db.nextQueuedMsgId : Int)⟩,
        { db with
          messageQueue := (db.messageQueue ++ [firstSendRow i1 db])
          nextQueuedMsgId := db.nextQueuedMsgId + 1
          authNonces := (db.authNonces ++ [⟨i1.auth.nonce, i1.auth.userId, now1⟩]) }) ∧
    messageSend c now2 i2
        { db with
          messageQueue := (db.messageQueue ++ [firstSendRow i1 db])
          nextQueuedMsgId := db.nextQueuedMsgId + 1
          authNonces := (db.authNonces ++ [⟨i1.auth.nonce, i1.auth.userId, now1⟩]) } =
      (.ok ⟨(db.nextQueuedMsgId : Int)⟩,
        { db with
          messageQueue := (db.messageQueue ++ [firstSendRow i1 db])
          nextQueuedMsgId := db.nextQueuedMsgId + 1
          authNonces := ((db.authNonces ++ [⟨i1.auth.nonce, i1.auth.userId, now1⟩]) ++
            [⟨i2.auth.nonce, i2.auth.userId, now2⟩]) }) := by
  obtain ⟨henv1, hderive1, hsig1⟩ := hv1
  simp only [Request.procName, Request.payloadJson] at hsig1
  obtain ⟨henv2, hderive2, hsig2⟩ := hv2
  simp only [Request.procName, Request.payloadJson] at hsig2
  obtain ⟨u, rest, hfilter⟩ : ∃ u rest,
      db.users.filter (fun v => decide (v.userId = i1.toUserId)) = u :: rest := by
    cases hfe : db.users.filter (fun v => decide (v.userId = i1.toUserId)) with
    | nil => exact absurd hfe htarget
    | cons u rest => exact ⟨u, rest, rfl⟩
  have hany : db.messageQueue.any (msgTriple i1.toUserId i1.auth.userId i1.clientMsgId) = false := by
    rw [List.any_eq_false]
    intro r hr
    simpa using hnew r hr
  constructor
  · simp only [messageSend, withAuth]
    rw [requireAuth_ok c "message.send" i1.auth (encodeSendPayload i1) now1 db
      hderive1 hsig1 hfresh1]
    simp only [sendBody, hfilter, hany, List.head?_cons, Bool.false_eq_true, if_false]
    rfl
  · have hfresh2b : noncePresent
        { db with
          messageQueue := (db.messageQueue ++ [firstSendRow i1 db])
          nextQueuedMsgId := db.nextQueuedMsgId + 1
          authNonces := (db.authNonces ++ [⟨i1.auth.nonce, i1.auth.userId, now1⟩]) }
        i2.auth.userId i2.auth.nonce = false := by
      simp only [noncePresent, List.any_append, Bool.or_eq_false_iff]
      constructor
      · simpa [noncePresent] using hfresh2
      · simp only [List.any_cons, List.any_nil, Bool.or_false, decide_eq_false_iff_not, not_and]
        intro _ h
        exact hdiff h.symm
    simp only [messageSend, withAuth]
    rw [requireAuth_ok c "message.send" i2.auth (encodeSendPayload i2) now2 _
      hderive2 hsig2 hfresh2b]
    have hany2 : (db.messageQueue ++ [firstSendRow i1 db]).any
        (msgTriple i2.toUserId i2.auth.userId i2.clientMsgId) = true := by
      rw [hto, hcm, hsameuser, List.any_append, hany]
      simp [msgTriple, firstSendRow]
    have hfilter2 : (db.messageQueue ++ [firstSendRow i1 db]).filter
        (msgTriple i2.toUserId i2.auth.userId i2.clientMsgId) = [firstSendRow i1 db] := by
      rw [hto, hcm, hsameuser, List.filter_append,
        List.filter_eq_nil_iff.mpr fun a ha => by simp [hnew a ha]]
      simp [msgTriple, firstSendRow]
    simp only [sendBody, hfilter, hany2, hfilter2]
    simp only [hto]
    simp only [hfilter, List.head?_cons, hany2, if_true, hfilter2]
    rfl

/-- A concrete registered recipient. -/
def testRecipient : UserRow :=
  { userId := "uid:identityBBB"
    identityPublicKey := "identityBBB"
    signalIdentityPublicKey := "signalB"
    registrationId := 7
    createdAt := 1 }

/-- A database holding only the registered recipient. -/
def dbWithRecipient : DB := { DB.empty with users := [testRecipient] }

/-- The concrete retry of `testSendInput`: same triple, different nonce,
different ciphertext. -/
def testSendInput2 : SendInput :=
  { auth := { testEnvelope with nonce := "nonce-000000000002", signature := "sigAAA2" }
    toUserId := "uid:identityBBB"
    ciphertext := "ct-DIFFERENT"
    header := "hd-2"
    clientMsgId := "m1"
    createdAt := 2000 }

/-- Witness for C3: both concrete sends return queue id 1. -/
theorem c3_send_idempotent_witness :
    (messageSend testCrypto 11 testSendInput dbWithRecipient).1 = .ok ⟨(1 : Int)⟩ ∧
    (messageSend testCrypto 12 testSendInput2
      (messageSend testCrypto 11 testSendInput dbWithRecipient).2).1 = .ok ⟨(1 : Int)⟩ := by
  have h := c3_send_idempotent testCrypto 11 12 testSendInput testSendInput2 dbWithRecipient
    ⟨rfl, rfl, rfl⟩ (by decide) ⟨rfl, rfl, rfl⟩ rfl rfl rfl (by decide) (by decide)
    (by decide) (by decide)
  constructor
  · rw [h.1]
    rfl
  · rw [congrArg Prod.snd h.1, h.2]
    rfl

/-! ## Bundle exhaustion (C4) -/

/-- A concrete `identity.registerBundle` input with exactly one one-time
pre-key. -/
def testRegisterInput : RegisterBundleInput :=
  { auth := testEnvelope
    signalIdentityPublicKey := "signalA"
    registrationId := 5
    signedPreKey := { keyId := 77, publicKey := "spkPub", signature := "spkSig" }
    oneTimePreKeys := [{ keyId := 9, publicKey := "otpkPub" }] }

/-- C4 counterexample: after registering a bundle with exactly one one-time
pre-key, the first `identity.getBundle` serves it, and the second call does
NOT return a bundle with `oneTimePreKey: null` — it fails with
`NOT_FOUND ("no prekey bundle")`, because `registerBundle` creates one
`prekeys` row per one-time pre-key and the only row is now used. -/
theorem c4_second_fetch_not_found_counterexample :
    (identityGetBundle "uid:identityAAA"
      (identityRegisterBundle testCrypto 3 testRegisterInput DB.empty).2).1 =
      .ok { registrationId := 5, signalIdentityPublicKey := "signalA",
            signedPreKey := ⟨77, "spkPub", "spkSig"⟩,
            oneTimePreKey := some ⟨9, "otpkPub"⟩ } ∧
    (identityGetBundle "uid:identityAAA"
      (identityGetBundle "uid:identityAAA"
        (identityRegisterBundle testCrypto 3 testRegisterInput DB.empty).2).2).1 =
      .error (.notFound "no prekey bundle") := by
  decide

/-- C4 as the code actually behaves: when the pool holds exactly one unused
row and that row carries a one-time pre-key, the first fetch returns the
signed pre-key plus that one-time pre-key and marks the row used, and the
second fetch fails with `NOT_FOUND ("no prekey bundle")`. -/
theorem c4_bundle_exhaustion_not_found (userId kpub : String) (kid : Nat) (db : DB)
    (u : UserRow) (r : PrekeyRow)
    (huser : (db.users.filter fun v => decide (v.userId = userId)).head? = some u)
    (hpool : db.prekeys.filter (fun p => decide (p.userId = userId) && !p.isUsed) = [r])
    (hkid : r.oneTimePreKeyId = some kid) (hkpub : r.oneTimePreKeyPublic = some kpub) :
    identityGetBundle userId db =
      (.ok { registrationId := u.registrationId,
             signalIdentityPublicKey := u.signalIdentityPublicKey,
             signedPreKey := ⟨r.signedPreKeyId, r.signedPreKeyPublic, r.signedPreKeySignature⟩,
             oneTimePreKey := some ⟨kid, kpub⟩ },
        { db with prekeys := (db.prekeys.map fun p =>
            if p.id = r.id then { p with isUsed := true } else p) }) ∧
    (identityGetBundle userId
      { db with prekeys := (db.prekeys.map fun p =>
          if p.id = r.id then { p with isUsed := true } else p) }).1 =
      .error (.notFound "no prekey bundle") := by
  have hmemr : ∀ p ∈ db.prekeys, (decide (p.userId = userId) && !p.isUsed) = true → p = r := by
    intro p hp hc
    have hmem : p ∈ db.prekeys.filter fun q => decide (q.userId = userId) && !q.isUsed :=
      List.mem_filter.mpr ⟨hp, hc⟩
    rw [hpool] at hmem
    simpa using hmem
  constructor
  · simp only [identityGetBundle, huser, hpool]
    simp only [List.insertionSort, List.orderedInsert, List.head?_cons]
    rw [hkid]
    simp [hkid, hkpub]
  · have hfilter2 : ((db.prekeys.map fun p =>
        if p.id = r.id then { p with isUsed := true } else p).filter
          fun q => decide (q.userId = userId) && !q.isUsed) = [] := by
      rw [List.filter_eq_nil_iff]
      intro q hq
      rw [List.mem_map] at hq
      obtain ⟨p, hp, hfq⟩ := hq
      by_cases hid : p.id = r.id
      · rw [← hfq]
        simp [hid]
      · rw [← hfq]
        simp only [hid, if_false]
        intro hc
        exact hid (by rw [hmemr p hp hc])
    simp only [identityGetBundle]
    simp only [huser]
    simp [hfilter2]

/-- Witness for the amended C4 theorem at the concrete registered bundle. -/
theorem c4_bundle_exhaustion_not_found_witness :
    identityGetBundle "uid:identityAAA"
        (identityRegisterBundle testCrypto 3 testRegisterInput DB.empty).2 =
      (.ok { registrationId := 5, signalIdentityPublicKey := "signalA",
             signedPreKey := ⟨77, "spkPub", "spkSig"⟩,
             oneTimePreKey := some ⟨9, "otpkPub"⟩ },
        { (identityRegisterBundle testCrypto 3 testRegisterInput DB.empty).2 with
          prekeys := (((identityRegisterBundle testCrypto 3 testRegisterInput DB.empty).2).prekeys.map
            fun p => if p.id = 1 then { p with isUsed := true } else p) }) ∧
    (identityGetBundle "uid:identityAAA"
      { (identityRegisterBundle testCrypto 3 testRegisterInput DB.empty).2 with
        prekeys := (((identityRegisterBundle testCrypto 3 testRegisterInput DB.empty).2).prekeys.map
          fun p => if p.id = 1 then { p with isUsed := true } else p) }).1 =
      .error (.notFound "no prekey bundle") :=
  c4_bundle_exhaustion_not_found "uid:identityAAA" "otpkPub" 9
    (identityRegisterBundle testCrypto 3 testRegisterInput DB.empty).2
    ⟨"uid:identityAAA", "identityAAA", "signalA", 5, 3⟩
    ⟨1, "uid:identityAAA", 77, "spkPub", "spkSig", some 9, some "otpkPub", false, 3⟩
    (by decide) (by decide) rfl rfl

/-! ## One-time pre-key consumption (C5) -/

/-- Mark a row used when its id belongs to `S`. -/
def markUsedIf (S : List Nat) (r : PrekeyRow) : PrekeyRow :=
  if r.id ∈ S then { r with isUsed := true } else r

/-- The pre-key table evolves only by marking rows used. -/
def PrekeysEvolve (l l2 : List PrekeyRow) : Prop :=
  ∃ S : List Nat, l2 = l.map (markUsedIf S)

/-- Every row with the given id is used. -/
def UsedAt (l : List PrekeyRow) (i : Nat) : Prop :=
  ∀ r ∈ l, r.id = i → r.isUsed = true

/-- One `identity.getBundle` call, for any target user, as a transition on
databases. -/
def GetBundleStep (db db2 : DB) : Prop :=
  ∃ u res, identityGetBundle u db = (res, db2)

/-- Any number of `identity.getBundle` calls. -/
def BundleReach : DB → DB → Prop := Relation.ReflTransGen GetBundleStep

theorem evolve_refl (l : List PrekeyRow) : PrekeysEvolve l l := by
  refine ⟨[], ?_⟩
  have hfun : markUsedIf [] = id := funext fun r => by simp [markUsedIf]
  rw [hfun, List.map_id]

theorem evolve_trans {l1 l2 l3 : List PrekeyRow} (h1 : PrekeysEvolve l1 l2)
    (h2 : PrekeysEvolve l2 l3) : PrekeysEvolve l1 l3 := by
  obtain ⟨S1, hS1⟩ := h1
  obtain ⟨S2, hS2⟩ := h2
  refine ⟨S1 ++ S2, ?_⟩
  rw [hS2, hS1, List.map_map]
  refine List.map_congr_left fun r _ => ?_
  unfold markUsedIf
  by_cases c1 : r.id ∈ S1 <;> by_cases c2 : r.id ∈ S2 <;>
    simp [Function.comp, c1, c2, List.mem_append]

theorem evolve_usedAt {l l2 : List PrekeyRow} {i : Nat} (h : PrekeysEvolve l l2)
    (hu : UsedAt l i) : UsedAt l2 i := by
  obtain ⟨S, hS⟩ := h
  subst hS
  intro r2 hr2 hid
  rw [List.mem_map] at hr2
  obtain ⟨r, hr, hfr⟩ := hr2
  unfold markUsedIf at hfr
  by_cases hmem : r.id ∈ S
  · rw [if_pos hmem] at hfr
    rw [← hfr]
  · rw [if_neg hmem] at hfr
    subst hfr
    exact hu r hr hid

theorem evolve_back {l l2 : List PrekeyRow} (h : PrekeysEvolve l l2) :
    ∀ r2 ∈ l2, ∃ r ∈ l, r.id = r2.id ∧ r.userId = r2.userId ∧
      r.oneTimePreKeyId = r2.oneTimePreKeyId := by
  obtain ⟨S, hS⟩ := h
  subst hS
  intro r2 hr2
  rw [List.mem_map] at hr2
  obtain ⟨r, hr, hfr⟩ := hr2
  refine ⟨r, hr, ?_⟩
  unfold markUsedIf at hfr
  by_cases hmem : r.id ∈ S
  · rw [if_pos hmem] at hfr
    rw [← hfr]
    exact ⟨rfl, rfl, rfl⟩
  · rw [if_neg hmem] at hfr
    subst hfr
    exact ⟨rfl, rfl, rfl⟩

/-- The head of a list, when it exists, is a member. -/
theorem head?_mem {α : Type} {l : List α} {a : α} (h : l.head? = some a) : a ∈ l := by
  cases l with
  | nil => cases h
  | cons x xs =>
    rw [List.head?_cons, Option.some.injEq] at h
    rw [← h]
    exact List.mem_cons_self x xs

/-- A `getBundle` call only marks pre-key rows used. -/
theorem getBundle_snd_evolve (u : String) (db : DB) :
    PrekeysEvolve db.prekeys ((identityGetBundle u db).2).prekeys := by
  unfold identityGetBundle
  split
  · exact evolve_refl _
  · split
    · exact evolve_refl _
    · rename_i identity hident prekey hprekey
      dsimp only
      split
      · refine ⟨[prekey.id], ?_⟩
        refine List.map_congr_left fun r _ => ?_
        unfold markUsedIf
        simp [List.mem_singleton]
      · exact evolve_refl _

/-- A chain of `getBundle` calls only marks pre-key rows used. -/
theorem reach_evolve {db db2 : DB} (h : BundleReach db db2) :
    PrekeysEvolve db.prekeys db2.prekeys := by
  induction h with
  | refl => exact evolve_refl _
  | @tail mid fin hreach hstep ih =>
    obtain ⟨uu, res, heq⟩ := hstep
    have hev := getBundle_snd_evolve uu mid
    rw [congrArg Prod.snd heq] at hev
    exact evolve_trans ih hev

/-- Marking an id used makes every row with that id used. -/
theorem usedAt_mark (l : List PrekeyRow) (i : Nat) :
    UsedAt (l.map fun p => if p.id = i then { p with isUsed := true } else p) i := by
  intro r hr hid
  rw [List.mem_map] at hr
  obtain ⟨p, hp, hfp⟩ := hr
  by_cases h : p.id = i
  · rw [if_pos h] at hfp
    rw [← hfp]
  · rw [if_neg h] at hfp
    rw [← hfp] at hid
    exact absurd hid h

/-- A successful `getBundle` returning a one-time pre-key is served from an
unused row of the caller's pool holding that key id, and marks exactly that
row's id used. -/
theorem getBundle_serves {u : String} {db : DB} {b : BundleOut} {db2 : DB} {k : PreKeyOut}
    (h : identityGetBundle u db = (.ok b, db2)) (hk : b.oneTimePreKey = some k) :
    ∃ r ∈ db.prekeys, r.userId = u ∧ r.isUsed = false ∧ r.oneTimePreKeyId = some k.keyId ∧
      db2.prekeys = db.prekeys.map fun p =>
        if p.id = r.id then { p with isUsed := true } else p := by
  unfold identityGetBundle at h
  split at h
  · simp at h
  · split at h
    · simp at h
    · rename_i identity hident prekey hprekey
      rw [Prod.mk.injEq, Except.ok.injEq] at h
      obtain ⟨hb, hdb⟩ := h
      have hmem0 : prekey ∈ (db.prekeys.filter fun r =>
          decide (r.userId = u) && !r.isUsed).insertionSort prekeyIdLE := head?_mem hprekey
      rw [List.mem_insertionSort, List.mem_filter] at hmem0
      obtain ⟨hmemdb, hcond⟩ := hmem0
      rw [Bool.and_eq_true, decide_eq_true_eq, Bool.not_eq_eq_eq_not, Bool.not_true] at hcond
      obtain ⟨hu, hunused⟩ := hcond
      cases hkid : prekey.oneTimePreKeyId with
      | none =>
        rw [← hb] at hk
        simp [hkid] at hk
      | some kid =>
        cases hkpub : prekey.oneTimePreKeyPublic with
        | none =>
          rw [← hb] at hk
          simp [hkid, hkpub] at hk
        | some pub =>
          have hkk : kid = k.keyId := by
            rw [← hb] at hk
            simp only [hkid, hkpub] at hk
            rw [Option.some.injEq] at hk
            rw [← hk]
          refine ⟨prekey, hmemdb, hu, hunused, by rw [hkid, hkk], ?_⟩
          rw [← hdb]
          rw [if_pos (by rw [hkid]; exact Option.some_ne_none kid)]

/-- Injectivity extracted from a `Nodup` `filterMap`. -/
theorem nodup_filterMap_eq {α β : Type} {f : α → Option β} {l : List α}
    (h : (l.filterMap f).Nodup) {a b : α} (ha : a ∈ l) (hb : b ∈ l) {k : β}
    (hfa : f a = some k) (hfb : f b = some k) : a = b := by
  induction l with
  | nil => cases ha
  | cons x xs ih =>
    cases hx : f x with
    | none =>
      rw [List.filterMap_cons_none hx] at h
      rcases List.mem_cons.mp ha with rfl | ha2
      · rw [hfa] at hx
        cases hx
      rcases List.mem_cons.mp hb with rfl | hb2
      · rw [hfb] at hx
        cases hx
      exact ih h ha2 hb2
    | some kx =>
      rw [List.filterMap_cons_some hx, List.nodup_cons] at h
      obtain ⟨hnot, hnd⟩ := h
      rcases List.mem_cons.mp ha with rfl | ha2 <;> rcases List.mem_cons.mp hb with rfl | hb2
      · rfl
      · rw [hfa, Option.some.injEq] at hx
        exact absurd (List.mem_filterMap.mpr ⟨b, hb2, by rw [hfb, hx]⟩) hnot
      · rw [hfb, Option.some.injEq] at hx
        exact absurd (List.mem_filterMap.mpr ⟨a, ha2, by rw [hfa, hx]⟩) hnot
      · exact ih hnd ha2 hb2

/-- The one-time key id a pre-key row contributes to a user's pool. -/
def userKeyId (u : String) (r : PrekeyRow) : Option Nat :=
  if r.userId = u then r.oneTimePreKeyId else none

/-- C5 (amended): across any sequence of `identity.getBundle` calls with no
intervening `registerBundle`, two successful calls for the same user never
return the same one-time pre-key keyId, provided the user's registered
one-time keyIds are pairwise distinct — a returned pre-key's row is marked
used in the same step, only unused rows are selectable, and rows are never
un-marked. -/
theorem c5_one_time_prekey_used_once (u : String) (db db1 db2 db3 : DB)
    (b1 b2 : BundleOut) (k1 k2 : PreKeyOut)
    (hkeys : (db.prekeys.filterMap (userKeyId u)).Nodup)
    (h1 : identityGetBundle u db = (.ok b1, db1)) (hk1 : b1.oneTimePreKey = some k1)
    (hreach : BundleReach db1 db2)
    (h2 : identityGetBundle u db2 = (.ok b2, db3)) (hk2 : b2.oneTimePreKey = some k2) :
    k1.keyId ≠ k2.keyId := by
  obtain ⟨r1, hr1mem, hr1u, hr1unused, hr1kid, hdb1⟩ := getBundle_serves h1 hk1
  have hused1 : UsedAt db1.prekeys r1.id := by
    rw [hdb1]
    exact usedAt_mark db.prekeys r1.id
  have hused2 : UsedAt db2.prekeys r1.id := evolve_usedAt (reach_evolve hreach) hused1
  obtain ⟨r2, hr2mem, hr2u, hr2unused, hr2kid, _⟩ := getBundle_serves h2 hk2
  have hev02 : PrekeysEvolve db.prekeys db2.prekeys := by
    refine evolve_trans ?_ (reach_evolve hreach)
    rw [hdb1]
    refine ⟨[r1.id], ?_⟩
    refine List.map_congr_left fun r _ => ?_
    unfold markUsedIf
    simp [List.mem_singleton]
  obtain ⟨r20, hr20mem, hid20, hu20, hkid20⟩ := evolve_back hev02 r2 hr2mem
  intro hkk
  have hf1 : userKeyId u r1 = some k1.keyId := by
    simp [userKeyId, hr1u, hr1kid]
  have hf20 : userKeyId u r20 = some k1.keyId := by
    simp [userKeyId, hu20, hr2u, hkid20, hr2kid, hkk]
  have hr120 : r1 = r20 := nodup_filterMap_eq hkeys hr1mem hr20mem hf1 hf20
  have hcontra : r2.isUsed = true := hused2 r2 hr2mem (by rw [← hid20, ← hr120])
  rw [hr2unused] at hcontra
  cases hcontra

/-- A user with two registered one-time pre-keys that share keyId 3 —
accepted by the zod schema, which does not require distinct keyIds. -/
def dupRegisterInput : RegisterBundleInput :=
  { auth := testEnvelope
    signalIdentityPublicKey := "signalA"
    registrationId := 5
    signedPreKey := { keyId := 77, publicKey := "spkPub", signature := "spkSig" }
    oneTimePreKeys := [{ keyId := 3, publicKey := "pkX" }, { keyId := 3, publicKey := "pkY" }] }

/-- C5 counterexample (claim as stated): after registering two one-time
pre-keys with the same keyId, two sequential `getBundle` calls both succeed
and both return oneTimePreKey keyId 3. -/
theorem c5_duplicate_keyid_counterexample :
    (identityGetBundle "uid:identityAAA"
      (identityRegisterBundle testCrypto 3 dupRegisterInput DB.empty).2).1 =
      .ok { registrationId := 5, signalIdentityPublicKey := "signalA",
            signedPreKey := ⟨77, "spkPub", "spkSig"⟩,
            oneTimePreKey := some ⟨3, "pkX"⟩ } ∧
    (identityGetBundle "uid:identityAAA"
      (identityGetBundle "uid:identityAAA"
        (identityRegisterBundle testCrypto 3 dupRegisterInput DB.empty).2).2).1 =
      .ok { registrationId := 5, signalIdentityPublicKey := "signalA",
            signedPreKey := ⟨77, "spkPub", "spkSig"⟩,
            oneTimePreKey := some ⟨3, "pkY"⟩ } := by
  decide

/-- A user with two distinct-keyId one-time pre-key rows. -/
def dbTwoKeys : DB :=
  { DB.empty with
    users := [⟨"uA", "ipkA", "sigA", 5, 1⟩]
    prekeys := [⟨1, "uA", 77, "sp", "ss", some 9, some "p9", false, 1⟩,
                ⟨2, "uA", 77, "sp", "ss", some 10, some "p10", false, 1⟩]
    nextPrekeyId := 3 }

/-- Witness for the amended C5 theorem: two concrete sequential fetches
serve keyIds 9 and 10, which differ. -/
theorem c5_one_time_prekey_used_once_witness :
    ({ keyId := 9, publicKey := "p9" } : PreKeyOut).keyId ≠
      ({ keyId := 10, publicKey := "p10" } : PreKeyOut).keyId :=
  c5_one_time_prekey_used_once "uA" dbTwoKeys
    { dbTwoKeys with prekeys := [⟨1, "uA", 77, "sp", "ss", some 9, some "p9", true, 1⟩,
        ⟨2, "uA", 77, "sp", "ss", some 10, some "p10", false, 1⟩] }
    { dbTwoKeys with prekeys := [⟨1, "uA", 77, "sp", "ss", some 9, some "p9", true, 1⟩,
        ⟨2, "uA", 77, "sp", "ss", some 10, some "p10", false, 1⟩] }
    { dbTwoKeys with prekeys := [⟨1, "uA", 77, "sp", "ss", some 9, some "p9", true, 1⟩,
        ⟨2, "uA", 77, "sp", "ss", some 10, some "p10", true, 1⟩] }
    { registrationId := 5, signalIdentityPublicKey := "sigA",
      signedPreKey := ⟨77, "sp", "ss"⟩, oneTimePreKey := some ⟨9, "p9"⟩ }
    { registrationId := 5, signalIdentityPublicKey := "sigA",
      signedPreKey := ⟨77, "sp", "ss"⟩, oneTimePreKey := some ⟨10, "p10"⟩ }
    ⟨9, "p9"⟩ ⟨10, "p10"⟩
    (by decide) (by decide) rfl Relation.ReflTransGen.refl (by decide) rfl

/-! ## group.ackDelete (C6) -/

/-- A group with an owner `uA`, a member `uid:identityAAA`, and one queued
group message with `queuedMsgId = 1`. -/
def dbGroupScenario : DB :=
  { DB.empty with
    users := [⟨"uA", "ipkA", "sA", 5, 1⟩,
              ⟨"uid:identityAAA", "identityAAA", "sB", 6, 1⟩]
    groups := [⟨1, "g", 1, "uA"⟩]
    groupMembers := [⟨1, "uA", .owner, 1⟩, ⟨1, "uid:identityAAA", .member, 1⟩]
    groupMessageQueue := [⟨1, 1, "uA", "ct", "hd", "m1", 10⟩]
    nextGroupId := 2
    nextGroupQueuedMsgId := 2 }

/-- An authenticated non-member of the group. -/
def outsiderEnvelope : AuthEnvelope :=
  { userId := "uid:identityCCC"
    identityPublicKey := "identityCCC"
    nonce := "nonce-000000000003"
    signature := "sigCCC" }

/-- C6, evaluated at the failing input: an authenticated group member calls
`group.ackDelete` for an existing queued row; the call reports `ok` but the
row is NOT removed — the source's handler looks the row up, checks
membership, and returns without ever issuing a delete.  The claim's other
two branches do hold: a missing row is a silent success and a non-member
gets `FORBIDDEN`. -/
theorem c6_group_ack_delete_never_deletes :
    (groupAckDelete testCrypto 9 ⟨testEnvelope, 1⟩ dbGroupScenario).1 = .ok () ∧
    ((groupAckDelete testCrypto 9 ⟨testEnvelope, 1⟩ dbGroupScenario).2).groupMessageQueue =
      dbGroupScenario.groupMessageQueue ∧
    (groupAckDelete testCrypto 9 ⟨testEnvelope, 99⟩ dbGroupScenario).1 = .ok () ∧
    (groupAckDelete testCrypto 9 ⟨outsiderEnvelope, 1⟩ dbGroupScenario).1 =
      .error (.forbidden "not a group member") := by
  decide

/-! ## message.poll (C7) -/

/-- Two queued rows for the same recipient with equal `createdAt`. -/
def dbSameTime : DB :=
  { DB.empty with
    messageQueue := [⟨1, "uid:identityAAA", "uX", "c1", "h1", "m1", 5, none⟩,
                     ⟨2, "uid:identityAAA", "uY", "c2", "h2", "m2", 5, none⟩]
    nextQueuedMsgId := 3 }

/-- C7 counterexample (strictness): with two queued rows of equal
`createdAt`, `message.poll` returns them adjacent, and the returned list is
not strictly ascending by `createdAt`. -/
theorem c7_poll_not_strictly_ascending_counterexample :
    (messagePoll testCrypto 9 ⟨testEnvelope, none⟩ dbSameTime).1 =
      .ok [⟨1, "uid:identityAAA", "uX", "c1", "h1", "m1", 5, none⟩,
           ⟨2, "uid:identityAAA", "uY", "c2", "h2", "m2", 5, none⟩] ∧
    ¬ ((⟨1, "uid:identityAAA", "uX", "c1", "h1", "m1", 5, none⟩ : MsgRow).createdAt <
       (⟨2, "uid:identityAAA", "uY", "c2", "h2", "m2", 5, none⟩ : MsgRow).createdAt) := by
  decide

/-- C7 (amended): under rows with positive `createdAt` (every row inserted
through the API has a zod-positive timestamp), an authenticated
`message.poll` returns exactly the rows addressed to the caller with
`createdAt > since.getD 0` — all the caller's rows when `since` is omitted
— as a permutation sorted ascending (non-strict) by `createdAt`. -/
theorem c7_poll_returns_filtered_ascending (c : Crypto) (now : Nat) (input : PollInput)
    (db : DB)
    (hv : ValidSigned c (.poll input) input.auth)
    (hfresh : noncePresent db input.auth.userId input.auth.nonce = false)
    (hpos : ∀ r ∈ db.messageQueue, 0 < r.createdAt) :
    ∃ rows : List MsgRow,
      messagePoll c now input db =
        (.ok rows,
          { db with authNonces :=
            (db.authNonces ++ [⟨input.auth.nonce, input.auth.userId, now⟩]) }) ∧
      rows.Perm (db.messageQueue.filter fun r =>
        decide (r.toUserId = input.auth.userId) && decide (input.since.getD 0 < r.createdAt)) ∧
      List.Sorted msgCreatedLE rows := by
  obtain ⟨henv, hderive, hsig⟩ := hv
  simp only [Request.procName, Request.payloadJson] at hsig
  refine ⟨(db.messageQueue.filter (pollCond input.auth.userId input.since)).insertionSort
    msgCreatedLE, ?_, ?_, ?_⟩
  · simp only [messagePoll, withAuth]
    rw [requireAuth_ok c "message.poll" input.auth (encodePollPayload input) now db
      hderive hsig hfresh]
    rfl
  · have hcongr : db.messageQueue.filter (pollCond input.auth.userId input.since) =
        db.messageQueue.filter fun r =>
          decide (r.toUserId = input.auth.userId) && decide (input.since.getD 0 < r.createdAt) := by
      refine List.filter_congr fun r hr => ?_
      unfold pollCond
      cases hs : input.since with
      | none => simp [sinceTruthy, hpos r hr]
      | some s =>
        by_cases h0 : s = 0
        · subst h0
          simp [sinceTruthy, hpos r hr]
        · have hbne : (s != 0) = true := by simpa using h0
          simp [sinceTruthy, hbne]
    rw [← hcongr]
    exact List.perm_insertionSort msgCreatedLE _
  · exact List.sorted_insertionSort msgCreatedLE _

/-- Witness for the amended C7 theorem at the equal-timestamp database. -/
theorem c7_poll_returns_filtered_ascending_witness :
    ∃ rows : List MsgRow,
      messagePoll testCrypto 9 ⟨testEnvelope, none⟩ dbSameTime =
        (.ok rows,
          { dbSameTime with authNonces :=
            (dbSameTime.authNonces ++ [⟨testEnvelope.nonce, testEnvelope.userId, 9⟩]) }) ∧
      rows.Perm (dbSameTime.messageQueue.filter fun r =>
        decide (r.toUserId = testEnvelope.userId) &&
          decide ((none : Option Nat).getD 0 < r.createdAt)) ∧
      List.Sorted msgCreatedLE rows :=
  c7_poll_returns_filtered_ascending testCrypto 9 ⟨testEnvelope, none⟩ dbSameTime
    ⟨rfl, rfl, rfl⟩ (by decide) (by decide)

/-! ## Member validation and insertion (C8, C9) -/

/-- The `inArray` length check counts one row per registered id: when every
id is registered and the ids are distinct (and user ids are unique, as the
primary key guarantees), the filtered count equals the list length. -/
theorem known_length_eq {users : List UserRow} {ids : List String}
    (hU : (users.map UserRow.userId).Nodup) (hids : ids.Nodup)
    (hall : ∀ id ∈ ids, ∃ u ∈ users, u.userId = id) :
    (users.filter fun u => decide (u.userId ∈ ids)).length = ids.length := by
  have hmapeq : (users.map UserRow.userId).filter (fun s => decide (s ∈ ids)) =
      (users.filter fun u => decide (u.userId ∈ ids)).map UserRow.userId := by
    rw [List.filter_map]
    rfl
  have hlen : (users.filter fun u => decide (u.userId ∈ ids)).length =
      ((users.map UserRow.userId).filter fun s => decide (s ∈ ids)).length := by
    rw [hmapeq, List.length_map]
  rw [hlen]
  have hKnd : ((users.map UserRow.userId).filter fun s => decide (s ∈ ids)).Nodup :=
    hU.filter _
  have hperm : ((users.map UserRow.userId).filter fun s => decide (s ∈ ids)).Perm ids := by
    rw [List.perm_ext_iff_of_nodup hKnd hids]
    intro a
    rw [List.mem_filter]
    constructor
    · rintro ⟨_, ha⟩
      simpa using ha
    · intro ha
      obtain ⟨u, hu, hua⟩ := hall a ha
      exact ⟨by rw [← hua]; exact List.mem_map_of_mem UserRow.userId hu, by simpa using ha⟩
  exact hperm.length_eq

/-- When some id in the list is unregistered, the filtered count falls
short of the list length. -/
theorem known_length_ne {users : List UserRow} {ids : List String} {id0 : String}
    (hU : (users.map UserRow.userId).Nodup)
    (hid0 : id0 ∈ ids) (hunk : ∀ u ∈ users, u.userId ≠ id0) :
    (users.filter fun u => decide (u.userId ∈ ids)).length ≠ ids.length := by
  have hmapeq : (users.map UserRow.userId).filter (fun s => decide (s ∈ ids)) =
      (users.filter fun u => decide (u.userId ∈ ids)).map UserRow.userId := by
    rw [List.filter_map]
    rfl
  have hlen : (users.filter fun u => decide (u.userId ∈ ids)).length =
      ((users.map UserRow.userId).filter fun s => decide (s ∈ ids)).length := by
    rw [hmapeq, List.length_map]
  have hKnd : ((users.map UserRow.userId).filter fun s => decide (s ∈ ids)).Nodup :=
    hU.filter _
  have hK0 : id0 ∉ (users.map UserRow.userId).filter fun s => decide (s ∈ ids) := by
    intro hmem
    rw [List.mem_filter, List.mem_map] at hmem
    obtain ⟨⟨u, hu, he⟩, _⟩ := hmem
    exact hunk u hu he
  have hsub : ((users.map UserRow.userId).filter fun s => decide (s ∈ ids)) ⊆
      (ids.dedup.erase id0) := by
    intro a ha
    refine (List.Nodup.mem_erase_iff (List.nodup_dedup ids)).mpr ⟨?_, ?_⟩
    · intro he
      rw [he] at ha
      exact hK0 ha
    · rw [List.mem_dedup]
      have := (List.mem_filter.mp ha).2
      simpa using this
  have h1 : ((users.map UserRow.userId).filter fun s => decide (s ∈ ids)).length ≤
      (ids.dedup.erase id0).length := (List.subperm_of_subset hKnd hsub).length_le
  have h2 : (ids.dedup.erase id0).length = ids.dedup.length - 1 :=
    List.length_erase_of_mem (List.mem_dedup.mpr hid0)
  have h3 : ids.dedup.length ≤ ids.length := (List.dedup_sublist ids).length_le
  have h4 : 0 < ids.dedup.length := List.length_pos_of_mem (List.mem_dedup.mpr hid0)
  omega

/-- Membership in the `jsDedup` accumulator loop. -/
theorem jsDedup_loop_mem : ∀ (l acc : List String) (a : String),
    (a ∈ l.foldl (fun acc x => if x ∈ acc then acc else acc ++ [x]) acc) ↔
      a ∈ acc ∨ a ∈ l := by
  intro l
  induction l with
  | nil =>
    intro acc a
    simp
  | cons x xs ih =>
    intro acc a
    rw [List.foldl_cons]
    by_cases hx : x ∈ acc
    · rw [if_pos hx, ih]
      constructor
      · rintro (h | h)
        · exact Or.inl h
        · exact Or.inr (List.mem_cons_of_mem x h)
      · rintro (h | h)
        · exact Or.inl h
        · rcases List.mem_cons.mp h with rfl | h2
          · exact Or.inl hx
          · exact Or.inr h2
    · rw [if_neg hx, ih]
      simp only [List.mem_append, List.mem_singleton, List.mem_cons]
      tauto

/-- The `jsDedup` accumulator loop preserves distinctness. -/
theorem jsDedup_loop_nodup : ∀ (l acc : List String), acc.Nodup →
    (l.foldl (fun acc x => if x ∈ acc then acc else acc ++ [x]) acc).Nodup := by
  intro l
  induction l with
  | nil =>
    intro acc h
    simpa using h
  | cons x xs ih =>
    intro acc h
    rw [List.foldl_cons]
    by_cases hx : x ∈ acc
    · rw [if_pos hx]
      exact ih acc h
    · rw [if_neg hx]
      refine ih (acc ++ [x]) ?_
      rw [List.nodup_append]
      exact ⟨h, List.nodup_singleton x, fun a ha hax => hx (by
        rw [List.mem_singleton] at hax
        rw [← hax]
        exact ha)⟩

/-- `Array.from(new Set(l))` contains exactly the elements of `l`. -/
theorem jsDedup_mem (l : List String) (a : String) : a ∈ jsDedup l ↔ a ∈ l := by
  unfold jsDedup
  rw [jsDedup_loop_mem]
  simp

/-- `Array.from(new Set(l))` is duplicate-free. -/
theorem jsDedup_nodup (l : List String) : (jsDedup l).Nodup :=
  jsDedup_loop_nodup l [] List.nodup_nil

/-- Bulk member insert over distinct ids: appends one `member` row per id
not already in the group, in order, leaving existing rows untouched. -/
theorem insertMembers_eq_append (g now : Nat) :
    ∀ (ids : List String) (ms : List MemberRow), ids.Nodup →
      insertMembersSkipConflicts g now ids ms =
        ms ++ (ids.filter fun id => !hasMember g id ms).map fun id =>
          ⟨g, id, .member, now⟩ := by
  intro ids
  induction ids with
  | nil =>
    intro ms _
    simp [insertMembersSkipConflicts]
  | cons id rest ih =>
    intro ms hnd
    rw [List.nodup_cons] at hnd
    obtain ⟨hidrest, hndrest⟩ := hnd
    unfold insertMembersSkipConflicts
    rw [List.foldl_cons]
    by_cases hm : hasMember g id ms
    · rw [if_pos hm]
      have := ih ms hndrest
      unfold insertMembersSkipConflicts at this
      rw [this]
      congr 1
      rw [List.filter_cons]
      rw [hm]
      simp
    · rw [if_neg hm]
      have := ih (ms ++ [⟨g, id, .member, now⟩]) hndrest
      unfold insertMembersSkipConflicts at this
      rw [this]
      have hfcongr : (rest.filter fun id2 =>
          !hasMember g id2 (ms ++ [⟨g, id, .member, now⟩])) =
          rest.filter fun id2 => !hasMember g id2 ms := by
        refine List.filter_congr fun id2 hid2 => ?_
        have hne : id2 ≠ id := fun he => hidrest (he ▸ hid2)
        unfold hasMember
        rw [List.any_append]
        have : ([(⟨g, id, .member, now⟩ : MemberRow)].any fun m =>
            decide (m.groupId = g ∧ m.userId = id2)) = false := by
          simp [hne.symm]
        rw [this, Bool.or_false]
      rw [hfcongr]
      rw [List.append_assoc]
      congr 1
      rw [List.filter_cons]
      have hmf : (!hasMember g id ms) = true := by
        simp [hm]
      rw [if_pos hmf, List.map_cons, List.singleton_append]

/-- C8 (amended): `group.addMembers` requires the authenticated actor to be
a member with role `owner` or `admin` (otherwise `FORBIDDEN`, membership
unchanged); when authorized, an unregistered id yields `INVALID_ARGUMENT`
(BAD_REQUEST) with membership unchanged, and with every id registered and
the ids pairwise distinct, one `member` row is appended per id not already
in the group, existing rows (and their roles) untouched.  A duplicate-free
id list is required: the length check also rejects duplicated registered
ids (see the counterexample). -/
theorem c8_add_members_authorization (c : Crypto) (now : Nat)
    (input : GroupAddMembersInput) (db : DB)
    (hv : ValidSigned c (.groupAddMembers input) input.auth)
    (hfresh : noncePresent db input.auth.userId input.auth.nonce = false)
    (hU : (db.users.map UserRow.userId).Nodup) :
    ((db.groupMembers.filter fun m =>
        decide (m.groupId = input.groupId ∧ m.userId = input.auth.userId)) = [] →
      groupAddMembers c now input db =
        (.error (.forbidden "insufficient role"),
          { db with authNonces :=
            (db.authNonces ++ [⟨input.auth.nonce, input.auth.userId, now⟩]) })) ∧
    (∀ actor, (db.groupMembers.filter fun m =>
        decide (m.groupId = input.groupId ∧ m.userId = input.auth.userId)).head? =
          some actor →
      actor.role = .member →
      groupAddMembers c now input db =
        (.error (.forbidden "insufficient role"),
          { db with authNonces :=
            (db.authNonces ++ [⟨input.auth.nonce, input.auth.userId, now⟩]) })) ∧
    (∀ actor, (db.groupMembers.filter fun m =>
        decide (m.groupId = input.groupId ∧ m.userId = input.auth.userId)).head? =
          some actor →
      (actor.role = .owner ∨ actor.role = .admin) →
      ∀ id0 ∈ input.memberUserIds, (∀ u ∈ db.users, u.userId ≠ id0) →
      groupAddMembers c now input db =
        (.error (.badRequest "unknown userId included"),
          { db with authNonces :=
            (db.authNonces ++ [⟨input.auth.nonce, input.auth.userId, now⟩]) })) ∧
    (∀ actor, (db.groupMembers.filter fun m =>
        decide (m.groupId = input.groupId ∧ m.userId = input.auth.userId)).head? =
          some actor →
      (actor.role = .owner ∨ actor.role = .admin) →
      (∀ id ∈ input.memberUserIds, ∃ u ∈ db.users, u.userId = id) →
      input.memberUserIds.Nodup →
      groupAddMembers c now input db =
        (.ok (),
          { db with
            groupMembers := (db.groupMembers ++
              (input.memberUserIds.filter fun id =>
                !hasMember input.groupId id db.groupMembers).map fun id =>
                  ⟨input.groupId, id, .member, now⟩)
            authNonces :=
              (db.authNonces ++ [⟨input.auth.nonce, input.auth.userId, now⟩]) })) := by
  obtain ⟨henv, hderive, hsig⟩ := hv
  simp only [Request.procName, Request.payloadJson] at hsig
  have hbody : groupAddMembers c now input db =
      groupAddMembersBody now input input.auth.userId
        { db with authNonces :=
          (db.authNonces ++ [⟨input.auth.nonce, input.auth.userId, now⟩]) } := by
    simp only [groupAddMembers, withAuth]
    rw [requireAuth_ok c "group.addMembers" input.auth (encodeGroupAddMembersPayload input)
      now db hderive hsig hfresh]
  refine ⟨?_, ?_, ?_, ?_⟩
  · intro h0
    rw [hbody]
    simp only [groupAddMembersBody]
    rw [h0]
    rfl
  · intro actor ha hrole
    rw [hbody]
    simp only [groupAddMembersBody]
    rw [ha]
    simp [hrole]
  · intro actor ha hrole id0 hid0 hunk
    rw [hbody]
    simp only [groupAddMembersBody]
    rw [ha]
    dsimp only
    have hauth : ¬ (actor.role ≠ Role.owner ∧ actor.role ≠ Role.admin) := by
      rcases hrole with h | h <;> simp [h]
    rw [if_neg hauth]
    rw [if_pos (known_length_ne hU hid0 hunk)]
  · intro actor ha hrole hall hnd
    rw [hbody]
    simp only [groupAddMembersBody]
    rw [ha]
    dsimp only
    have hauth : ¬ (actor.role ≠ Role.owner ∧ actor.role ≠ Role.admin) := by
      rcases hrole with h | h <;> simp [h]
    rw [if_neg hauth]
    rw [if_neg (by simpa using known_length_eq hU hnd hall)]
    rw [insertMembers_eq_append input.groupId now input.memberUserIds db.groupMembers hnd]

/-- A group whose owner is the authenticated test user, plus one registered
user `uX` not in the group. -/
def dbAddScenario : DB :=
  { DB.empty with
    users := [⟨"uid:identityAAA", "identityAAA", "sA", 5, 1⟩,
              ⟨"uX", "ipkX", "sX", 6, 1⟩]
    groups := [⟨1, "g", 1, "uid:identityAAA"⟩]
    groupMembers := [⟨1, "uid:identityAAA", .owner, 1⟩]
    nextGroupId := 2 }

/-- C8 counterexample: the owner adds `["uX", "uX"]` — every id resolves to
the registered user `uX`, yet the call fails with BAD_REQUEST
("unknown userId included") and inserts nothing, because the check compares
the count of distinct matching users (1) with the list length (2). -/
theorem c8_duplicate_ids_rejected_counterexample :
    (groupAddMembers testCrypto 9 ⟨testEnvelope, 1, ["uX", "uX"]⟩ dbAddScenario).1 =
      .error (.badRequest "unknown userId included") ∧
    ((groupAddMembers testCrypto 9 ⟨testEnvelope, 1, ["uX", "uX"]⟩ dbAddScenario).2).groupMembers =
      dbAddScenario.groupMembers ∧
    (∀ id ∈ ["uX", "uX"], ∃ u ∈ dbAddScenario.users, u.userId = id) := by
  decide

/-- Witness for the amended C8 theorem: the owner adds the single id `uX`,
which is appended with role `member`. -/
theorem c8_add_members_authorization_witness :
    groupAddMembers testCrypto 9 ⟨testEnvelope, 1, ["uX"]⟩ dbAddScenario =
      (.ok (),
        { dbAddScenario with
          groupMembers := (dbAddScenario.groupMembers ++
            ((["uX"].filter fun id => !hasMember 1 id dbAddScenario.groupMembers).map fun id =>
              ⟨1, id, .member, 9⟩))
          authNonces :=
            (dbAddScenario.authNonces ++ [⟨testEnvelope.nonce, testEnvelope.userId, 9⟩]) }) :=
  ((c8_add_members_authorization testCrypto 9 ⟨testEnvelope, 1, ["uX"]⟩ dbAddScenario
    ⟨rfl, rfl, rfl⟩ (by decide) (by decide)).2.2.2)
    ⟨1, "uid:identityAAA", .owner, 1⟩ (by decide) (Or.inl rfl) (by decide) (by decide)

/-- C9: `group.create` with creator C and list L — if some id in L is
unregistered the call fails with `INVALID_ARGUMENT` (BAD_REQUEST) and
creates no group row and no member rows; when every id of
`dedup(\x7bC\x7d ∪ L)` is registered, it creates one group row and inserts
exactly one member row per element of the deduplicated list, the creator
with role `owner` and everyone else with role `member`. -/
theorem c9_group_create_dedup_roles (c : Crypto) (now : Nat) (input : GroupCreateInput)
    (db : DB)
    (hv : ValidSigned c (.groupCreate input) input.auth)
    (hfresh : noncePresent db input.auth.userId input.auth.nonce = false)
    (hU : (db.users.map UserRow.userId).Nodup) :
    (∀ id0 ∈ input.memberUserIds, (∀ u ∈ db.users, u.userId ≠ id0) →
      groupCreate c now input db =
        (.error (.badRequest "unknown userId included"),
          { db with authNonces :=
            (db.authNonces ++ [⟨input.auth.nonce, input.auth.userId, now⟩]) })) ∧
    ((∀ id ∈ jsDedup (input.auth.userId :: input.memberUserIds),
        ∃ u ∈ db.users, u.userId = id) →
      groupCreate c now input db =
        (.ok db.nextGroupId,
          { db with
            groups := (db.groups ++ [⟨db.nextGroupId, input.name, now, input.auth.userId⟩])
            groupMembers := (db.groupMembers ++
              (jsDedup (input.auth.userId :: input.memberUserIds)).map fun m =>
                ⟨db.nextGroupId, m,
                  if m = input.auth.userId then .owner else .member, now⟩)
            nextGroupId := db.nextGroupId + 1
            authNonces :=
              (db.authNonces ++ [⟨input.auth.nonce, input.auth.userId, now⟩]) })) := by
  obtain ⟨henv, hderive, hsig⟩ := hv
  simp only [Request.procName, Request.payloadJson] at hsig
  have hbody : groupCreate c now input db =
      groupCreateBody now input input.auth.userId
        { db with authNonces :=
          (db.authNonces ++ [⟨input.auth.nonce, input.auth.userId, now⟩]) } := by
    simp only [groupCreate, withAuth]
    rw [requireAuth_ok c "group.create" input.auth (encodeGroupCreatePayload input)
      now db hderive hsig hfresh]
  constructor
  · intro id0 hid0 hunk
    rw [hbody]
    simp only [groupCreateBody]
    have hmem : id0 ∈ jsDedup (input.auth.userId :: input.memberUserIds) := by
      rw [jsDedup_mem]
      exact List.mem_cons_of_mem _ hid0
    rw [if_pos (known_length_ne hU hmem hunk)]
  · intro hall
    rw [hbody]
    simp only [groupCreateBody]
    have hknown := known_length_eq hU
      (jsDedup_nodup (input.auth.userId :: input.memberUserIds)) hall
    rw [if_neg (by simpa using hknown)]

/-- Witness for C9: the registered creator makes a group with the
registered member `uX`; the creator becomes owner and `uX` a member. -/
theorem c9_group_create_dedup_roles_witness :
    groupCreate testCrypto 9 ⟨testEnvelope, "team", ["uX"]⟩ dbAddScenario =
      (.ok dbAddScenario.nextGroupId,
        { dbAddScenario with
          groups := (dbAddScenario.groups ++
            [⟨dbAddScenario.nextGroupId, "team", 9, testEnvelope.userId⟩])
          groupMembers := (dbAddScenario.groupMembers ++
            (jsDedup (testEnvelope.userId :: ["uX"])).map fun m =>
              ⟨dbAddScenario.nextGroupId, m,
                if m = testEnvelope.userId then .owner else .member, 9⟩)
          nextGroupId := dbAddScenario.nextGroupId + 1
          authNonces :=
            (dbAddScenario.authNonces ++ [⟨testEnvelope.nonce, testEnvelope.userId, 9⟩]) }) :=
  (c9_group_create_dedup_roles testCrypto 9 ⟨testEnvelope, "team", ["uX"]⟩ dbAddScenario
    ⟨rfl, rfl, rfl⟩ (by decide) (by decide)).2 (by decide)

end WebMessenger
